import Mathlib

/-!
# Virtual keyboard: layout table, case/shift state machine and text buffer editor

A shallow embedding of `src/index.js`.

* JavaScript strings are sequences of UTF-16 code units; they are embedded as
  `List Char`, one list element per code unit (every glyph of the layout lies in
  the Basic Multilingual Plane, so one `Char` is one code unit there).
* The page built by `initPage` has a fixed shape: one `div.key` per entry of
  `ROWS`, holding a `span.ru` and a `span.en`, each holding four case spans in
  `CASING` order.  Only class lists change afterwards, so the page is embedded
  as the list of key cells in document order, each with the presence of the
  classes `hidden` and `active` on its elements.
* The text of a case span is the glyph `makeSpan` wrote into its markup: for
  every glyph of `ROWS` (also `<`, `>`, `&` and the space) the markup parses
  back to that glyph.
* A key identifier is looked up among the class names of the key cells; the
  style classes `key`, `row`, `hidden`, `active`, the locale and the case
  classes are not values of `KeyboardEvent.code`.
* The text field is a record of `value`, `selectionStart` and `selectionEnd`;
  an assignment stores what the handler writes.
* A handler that throws leaves the mutations made before the throw in place;
  such a handler returns `Except.error` carrying the state at the throw.
* The text of the locale indicator and `preventDefault` have no effect on the
  state kept here and are left out.
-/

namespace VirtualKeyboard

/-- A JavaScript string, as its sequence of UTF-16 code units. -/
abbrev Str := List Char

/-! ## Constants -/

/-- The two locales; `RU` is the string `ru`, `EN` the string `en`. -/
inductive Lang where
  | ru
  | en
deriving DecidableEq, Repr

abbrev RU : Lang := Lang.ru
abbrev EN : Lang := Lang.en

/-- The string value of a locale constant. -/
def Lang.str : Lang → Str
  | .ru => "ru".toList
  | .en => "en".toList

/-- The four case variants `CASE_DOWN`, `CASE_UP`, `CAPS`, `SHIFT_CAPS`. -/
inductive Case where
  | caseDown
  | caseUp
  | caps
  | shiftCaps
deriving DecidableEq, Repr

abbrev CASE_DOWN : Case := Case.caseDown
abbrev CASE_UP : Case := Case.caseUp
abbrev CAPS : Case := Case.caps
abbrev SHIFT_CAPS : Case := Case.shiftCaps

/-- The list `CASING = [CASE_DOWN, CASE_UP, CAPS, SHIFT_CAPS]`. -/
def CASING : List Case := [CASE_DOWN, CASE_UP, CAPS, SHIFT_CAPS]

/-! ## Strings -/

/-- The call `str.slice(a, b)` for non-negative integer arguments. -/
def slice (str : Str) (a b : Nat) : Str := (str.take b).drop a

/-- Upper-casing of one code unit: Basic Latin `a`-`z` and Cyrillic
U+0430-U+045F are mapped to their capitals, every other unit is kept. -/
def upperUnit (ch : Char) : Char :=
  let n := ch.toNat
  if 97 ≤ n ∧ n ≤ 122 then Char.ofNat (n - 32)
  else if 1072 ≤ n ∧ n ≤ 1103 then Char.ofNat (n - 32)
  else if 1104 ≤ n ∧ n ≤ 1119 then Char.ofNat (n - 80)
  else ch

/-- The library call `String.prototype.toUpperCase`, on the characters the
layout uses (Basic Latin, Cyrillic, digits, punctuation, arrows): it is exact
on every glyph of `ROWS`.  Other letters are kept as they are, which is not
what the library call does to them, so a statement about arbitrary strings
takes the upper-casing as a parameter (`makeLocaleWith`). -/
def toUpperCase (s : Str) : Str := s.map upperUnit

/-! ## Layout table -/

/-- The object built by `makeObj`: one glyph per case variant. -/
structure Locale where
  caseDown : Str
  caseUp : Str
  caps : Str
  shiftCaps : Str
deriving DecidableEq, Repr

/-- Property access `locale[x]` for `x` in `CASING`. -/
def Locale.get (l : Locale) : Case → Str
  | .caseDown => l.caseDown
  | .caseUp => l.caseUp
  | .caps => l.caps
  | .shiftCaps => l.shiftCaps

def makeObj (a b c d : Str) : Locale :=
  { caseDown := a, caseUp := b, caps := c, shiftCaps := d }

/-- The function `makeLocale(u, v)`; `v = none` is an omitted second form, and
`!v` also holds for the empty string. -/
def makeLocale (u : Str) (v : Option Str) : Locale :=
  match v with
  | none =>
    let uUp := if toUpperCase u ≠ u then toUpperCase u else u
    makeObj u uUp uUp u
  | some [] =>
    let uUp := if toUpperCase u ≠ u then toUpperCase u else u
    makeObj u uUp uUp u
  | some w => makeObj u w u w

/-- A key definition: class name and the glyphs of both locales. -/
structure Key where
  className : Str
  en : Locale
  ru : Locale
deriving DecidableEq, Repr

/-- Property access `key[lang]`. -/
def Key.get (k : Key) : Lang → Locale
  | .en => k.en
  | .ru => k.ru

/-- The array of forms handed to `makeKey`: a first form and possibly a second. -/
abbrev Forms := Str × Option Str

/-- The function `makeKey(name, en, ru)`; `none` is an omitted argument.  The
name is always given, so the guard on an undefined name never fires. -/
def makeKey (name : Str) (en : Option Forms) (ru : Option Forms) : Key :=
  let enFull : Forms := match en with
    | none => (name, none)
    | some f => f
  let ruFull : Forms := match ru with
    | none => enFull
    | some f => f
  { className := name, en := makeLocale enFull.1 enFull.2, ru := makeLocale ruFull.1 ruFull.2 }

/-- The function `zip(...args)`: the i-th entry collects the i-th unit of every
argument, for i below the shortest length. -/
def zip (args : List Str) : List (List Str) :=
  let limit := (args.map List.length).min?.getD 0
  (List.range limit).map (fun i => args.map (fun a => (a.get? i).toList))

def makeDigitKeys (ds csEn csRu : Str) : List Key :=
  (zip [ds, csEn, csRu]).map (fun t =>
    let d := t.getD 0 []
    let cEn := t.getD 1 []
    let cRu := t.getD 2 []
    makeKey ("Digit".toList ++ d) (some (d, some cEn)) (some (d, some cRu)))

def makeLetterKeys (csEn csRu : Str) : List Key :=
  (zip [csEn, csRu]).map (fun t =>
    let cEn := t.getD 0 []
    let cRu := t.getD 1 []
    makeKey ("Key".toList ++ toUpperCase cEn) (some (cEn, none)) (some (cRu, none)))

/-- A one-unit string given by its code point. -/
def unit (n : Nat) : Str := [Char.ofNat n]

/-! Class names the handlers compare against. -/

def Backspace : Str := "Backspace".toList
def Delete : Str := "Delete".toList
def ArrowLeft : Str := "ArrowLeft".toList
def ArrowUp : Str := "ArrowUp".toList
def ArrowRight : Str := "ArrowRight".toList
def ArrowDown : Str := "ArrowDown".toList
def CapsLock : Str := "CapsLock".toList
def ShiftLeft : Str := "ShiftLeft".toList
def ShiftRight : Str := "ShiftRight".toList
def Tab : Str := "Tab".toList
def Enter : Str := "Enter".toList
def AltLeft : Str := "AltLeft".toList
def AltRight : Str := "AltRight".toList
def ControlLeft : Str := "ControlLeft".toList
def ControlRight : Str := "ControlRight".toList

/-- The layout table `ROWS`.  Glyphs that are quoting characters are given by
code point: 96 backquote, 126 tilde, 34 double quote, 39 apostrophe, 92
backslash, 123 and 125 braces, 124 bar. -/
def ROWS : List (List Key) := [
  [makeKey "Backquote".toList (some (unit 96, some (unit 126))) (some ("ё".toList, none))]
    ++ makeDigitKeys "1234567890".toList "!@#$%^&*()".toList
        ("!".toList ++ unit 34 ++ "№;%:?*()".toList)
    ++ [makeKey "Minus".toList (some ("-".toList, some "_".toList)) none,
        makeKey "Equal".toList (some ("=".toList, some "+".toList)) none,
        makeKey Backspace none none],
  [makeKey Tab none none]
    ++ makeLetterKeys "qwertyuiop".toList "йцукенгшщз".toList
    ++ [makeKey "BracketLeft".toList (some ("[".toList, some (unit 123))) (some ("х".toList, none)),
        makeKey "BracketRight".toList (some ("]".toList, some (unit 125))) (some ("ъ".toList, none)),
        makeKey "Backslash".toList (some (unit 92, some (unit 124))) (some (unit 92, some "/".toList)),
        makeKey Delete (some ("Del".toList, none)) none],
  [makeKey CapsLock none none]
    ++ makeLetterKeys "asdfghjkl".toList "фывапролд".toList
    ++ [makeKey "Semicolon".toList (some (";".toList, some ":".toList)) (some ("ж".toList, none)),
        makeKey "Quote".toList (some (unit 39, some (unit 34))) (some ("э".toList, none)),
        makeKey Enter none none],
  [makeKey ShiftLeft (some ("Shift".toList, none)) none]
    ++ makeLetterKeys "zxcvbnm".toList "ячсмить".toList
    ++ [makeKey "Comma".toList (some (",".toList, some "<".toList)) (some ("б".toList, none)),
        makeKey "Period".toList (some (".".toList, some ">".toList)) (some ("ю".toList, none)),
        makeKey "Slash".toList (some ("/".toList, some "?".toList)) (some (".".toList, some ",".toList)),
        makeKey ArrowUp (some ("↑".toList, none)) none,
        makeKey ShiftRight (some ("Shift".toList, none)) none],
  [makeKey ControlLeft (some ("Ctrl".toList, none)) none,
   makeKey AltLeft (some ("Alt".toList, none)) none,
   makeKey "Space".toList (some (" ".toList, none)) none,
   makeKey AltRight (some ("Alt".toList, none)) none,
   makeKey ArrowLeft (some ("←".toList, none)) none,
   makeKey ArrowDown (some ("↓".toList, none)) none,
   makeKey ArrowRight (some ("→".toList, none)) none,
   makeKey ControlRight (some ("Ctrl".toList, none)) none]
]

/-! ## The page -/

/-- A locale span of a key cell (`span.ru` or `span.en`): for the span itself
and for each of its four case spans, whether its class list holds `hidden`. -/
structure LangSpan where
  hidden : Bool
  caseDown : Bool
  caseUp : Bool
  caps : Bool
  shiftCaps : Bool
deriving DecidableEq, Repr

/-- Whether the case span of class `k` holds `hidden`. -/
def LangSpan.isHidden (l : LangSpan) : Case → Bool
  | .caseDown => l.caseDown
  | .caseUp => l.caseUp
  | .caps => l.caps
  | .shiftCaps => l.shiftCaps

/-- Add (`true`) or remove (`false`) the class `hidden` on the case span `k`. -/
def LangSpan.setHidden (l : LangSpan) (k : Case) (b : Bool) : LangSpan :=
  match k with
  | .caseDown => { l with caseDown := b }
  | .caseUp => { l with caseUp := b }
  | .caps => { l with caps := b }
  | .shiftCaps => { l with shiftCaps := b }

/-- Add `hidden` to every case span that lacks it. -/
def LangSpan.hideSpans (l : LangSpan) : LangSpan :=
  { l with caseDown := true, caseUp := true, caps := true, shiftCaps := true }

/-- A key cell `div.key.<className>`: the key definition its spans were filled
from, whether it holds `active`, and its two locale spans, `span.ru` first. -/
structure Cell where
  key : Key
  active : Bool
  ru : LangSpan
  en : LangSpan
deriving DecidableEq, Repr

/-- The child of the cell selected by `div>.<lang>`. -/
def Cell.langSpan (c : Cell) : Lang → LangSpan
  | .ru => c.ru
  | .en => c.en

def Cell.setLangSpan (c : Cell) (lang : Lang) (l : LangSpan) : Cell :=
  match lang with
  | .ru => { c with ru := l }
  | .en => { c with en := l }

/-- The function `makeSpan(lang, i, j, data, hidden)`, as the class state of
the span it returns: case span `k` is shown only for `k = 0` and `!hidden`. -/
def makeSpan (hidden : Bool) : LangSpan :=
  let h (k : Nat) : Bool := !(k == 0 && !hidden)
  { hidden := hidden, caseDown := h 0, caseUp := h 1, caps := h 2, shiftCaps := h 3 }

/-- Descendants of a locale span in document order, each with its `hidden`
flag and its `textContent`; the text of case span `x` is `data[i][j][lang][x]`. -/
def langDescendants (l : LangSpan) (loc : Locale) : List (Bool × Str) :=
  (l.hidden, (CASING.map loc.get).flatten) :: CASING.map (fun k => (l.isHidden k, loc.get k))

/-- Descendants of a key cell in document order. -/
def Cell.descendants (c : Cell) : List (Bool × Str) :=
  langDescendants c.ru c.key.ru ++ langDescendants c.en c.key.en

/-- The expression `cell.querySelectorAll(':not(.hidden)')[1].textContent`;
`none` when there is no such element. -/
def Cell.shownText (c : Cell) : Option Str :=
  ((c.descendants.filter (fun d => !d.1))[1]?).map (fun d => d.2)

/-! ## Events -/

structure KeyboardEvent where
  code : Str
  ctrlKey : Bool
  altKey : Bool
  isRepeat : Bool
deriving DecidableEq, Repr

/-- The target of a pointer event.  Cells are numbered in document order; a
number beyond the grid names no element of the page. -/
inductive Target where
  /-- a case span of a key cell (tag `SPAN`) -/
  | caseSpan (cell : Nat) (lang : Lang) (k : Case)
  /-- a locale span of a key cell (tag `SPAN`) -/
  | langSpan (cell : Nat) (lang : Lang)
  /-- a key cell itself -/
  | keyDiv (cell : Nat)
  /-- an element whose closest `div` is not a key cell -/
  | otherDiv
  /-- an element without a `div` ancestor -/
  | noDiv
deriving DecidableEq, Repr

structure MouseEvent where
  target : Target
  ctrlKey : Bool
  altKey : Bool
deriving DecidableEq, Repr

/-- The event object kept in `current.event`. -/
inductive DomEvent where
  | key (e : KeyboardEvent)
  | mouse (e : MouseEvent)
deriving DecidableEq, Repr

def DomEvent.ctrlKey : DomEvent → Bool
  | .key e => e.ctrlKey
  | .mouse e => e.ctrlKey

def DomEvent.altKey : DomEvent → Bool
  | .key e => e.altKey
  | .mouse e => e.altKey

/-- The property `event.repeat`; a pointer event has none, which is falsy. -/
def DomEvent.isRepeat : DomEvent → Bool
  | .key e => e.isRepeat
  | .mouse _ => false

/-! ## Controller -/

/-- The record `this.state`. -/
structure State where
  isShiftLeftPressed : Bool
  isShiftRightPressed : Bool
  isCapsLockPressed : Bool
  case : Case
  lang : Lang
deriving DecidableEq, Repr

/-- The records `this.current` and `this.previous`; `none` is `null` or
`undefined`, an element is the number of its key cell. -/
structure KeyRecord where
  element : Option Nat
  code : Option Str
  event : Option DomEvent
  char : Option Str
deriving DecidableEq, Repr

/-- The text field: its value and its selection. -/
structure Textarea where
  value : Str
  selectionStart : Nat
  selectionEnd : Nat
deriving DecidableEq, Repr

/-- The controller together with the parts of the host it writes: `element`
is the keyboard (its key cells in document order), `storedLang` is
`localStorage.lang`. -/
structure Controller where
  element : List Cell
  textarea : Textarea
  state : State
  current : KeyRecord
  previous : KeyRecord
  storedLang : Option Str
deriving DecidableEq, Repr

/-- Result of a handler: `ok` when it returns, `error` when it throws, with the
state reached at that point. -/
abbrev Result := Except Controller Controller

/-- The constructor `new Controller()`, in a host whose store holds `stored`
under `lang`; the `null` element and text field are an empty grid and an empty
text. -/
def newController (stored : Option Str) : Controller :=
  { element := []
    textarea := { value := [], selectionStart := 0, selectionEnd := 0 }
    state := { isShiftLeftPressed := false, isShiftRightPressed := false,
               isCapsLockPressed := false, case := CASE_DOWN, lang := EN }
    current := { element := none, code := none, event := none, char := none }
    previous := { element := none, code := none, event := none, char := none }
    storedLang := stored }

/-- Add or remove the class `active` on the cell numbered `i`. -/
def setActive : List Cell → Nat → Bool → List Cell
  | [], _, _ => []
  | x :: xs, 0, b => { x with active := b } :: xs
  | x :: xs, i + 1, b => x :: setActive xs i b

/-- The call `this.element.getElementsByClassName(code)[0]` for a key
identifier: the first cell whose class list holds `code`. -/
def getElementsByClassName (cells : List Cell) (code : Str) : Option Nat :=
  cells.findIdx? (fun x => decide (x.key.className = code))

/-- The method `addActiveState`; it throws when `current.element` is `null`. -/
def addActiveState (c : Controller) : Result :=
  match c.current.element with
  | none => .error c
  | some i => .ok { c with element := setActive c.element i true }

def removeActiveState (c : Controller) : Controller :=
  match c.current.element with
  | none => c
  | some cur =>
    let cells :=
      match c.previous.element with
      | none => c.element
      | some prev =>
        if (c.element[prev]?).map (fun x => x.active) = some true
            ∧ c.previous.code ∉ [some CapsLock, some ShiftLeft, some ShiftRight]
        then setActive c.element prev false
        else c.element
    { c with element := setActive cells cur false }

/-- The loop body of `toggleCase` on the `div>.<lang>` child of one cell: add
`hidden` to each of its spans, then remove it from `spans[idx]`, the span of
class `k = CASING[idx]`. -/
def Cell.showCase (x : Cell) (lang : Lang) (k : Case) : Cell :=
  x.setLangSpan lang (((x.langSpan lang).hideSpans).setHidden k false)

/-- The method `toggleCase`.  The loop runs once per `div>.<lang>` element, that
is once per cell; `state.case` is assigned in the loop body, so it keeps its
value when there is no cell.  `idx` is at most 3, so `CASING[idx]` exists. -/
def toggleCase (c : Controller) : Controller :=
  let idx0 := 0
  let idx1 := if c.state.isCapsLockPressed then idx0 + 2 else idx0
  let idx := if c.state.isShiftLeftPressed || c.state.isShiftRightPressed then idx1 + 1 else idx1
  let k := CASING.getD idx CASE_DOWN
  { c with
    element := c.element.map (fun x => x.showCase c.state.lang k)
    state := if c.element.isEmpty then c.state else { c.state with case := k } }

/-- The loop body of `updateLangItems` on the `div>.<lang>` child of one cell:
toggle `hidden` on it and on its span of class `k`. -/
def Cell.toggleHidden (x : Cell) (lang : Lang) (k : Case) : Cell :=
  let l := x.langSpan lang
  let l1 := { l with hidden := !l.hidden }
  x.setLangSpan lang (l1.setHidden k (!l1.isHidden k))

def updateLangItems (c : Controller) : Controller :=
  { c with element := c.element.map (fun x => x.toggleHidden c.state.lang c.state.case) }

/-- The method `toggleLang`; the text of the locale indicator is not kept. -/
def toggleLang (c : Controller) : Controller :=
  let c1 := updateLangItems c
  let c2 := { c1 with state := { c1.state with lang := if c1.state.lang = EN then RU else EN } }
  let c3 := { c2 with storedLang := some c2.state.lang.str }
  updateLangItems c3

/-- The method `updateBuffer`.  With `current.char` equal to `null` the
concatenation inserts the text `null` and reading its length throws. -/
def updateBuffer (c : Controller) : Result :=
  let buffer := c.textarea.value
  let s := c.textarea.selectionStart
  if s ≤ buffer.length then
    match c.current.char with
    | some ch =>
      .ok { c with textarea :=
        { value := slice buffer 0 s ++ ch ++ slice buffer s buffer.length
          selectionStart := s + ch.length
          selectionEnd := s + ch.length } }
    | none =>
      .error { c with textarea :=
        { c.textarea with value := slice buffer 0 s ++ "null".toList ++ slice buffer s buffer.length } }
  else
    .ok { c with textarea := { c.textarea with value := buffer ++ (c.current.char.getD "null".toList) } }

/-- The first statement of `processKeyPress`: the locale is toggled when the
event carries both `ctrlKey` and `altKey`. -/
def chord (c : Controller) (ev : DomEvent) : Controller :=
  if ev.ctrlKey && ev.altKey then toggleLang c else c

/-- The method `processKeyPress`; it throws when `current.event` is `null`. -/
def processKeyPress (c0 : Controller) : Result :=
  match c0.current.event with
  | none => .error c0
  | some ev =>
    let c := chord c0 ev
    let e := c.textarea.value
    let s := c.textarea.selectionStart
    if c.current.code = some Backspace then
      if s ≠ 0 then
        .ok { c with textarea :=
          { value := slice e 0 (s - 1) ++ slice e s e.length
            selectionStart := s - 1
            selectionEnd := s - 1 } }
      else .ok c
    else if c.current.code = some Delete then
      if s ≠ e.length then
        .ok { c with textarea :=
          { value := slice e 0 s ++ slice e (s + 1) e.length
            selectionStart := s
            selectionEnd := s } }
      else .ok c
    else if c.current.code = some ArrowLeft ∨ c.current.code = some ArrowUp then
      if s ≠ 0 then
        .ok { c with textarea := { c.textarea with selectionStart := s - 1, selectionEnd := s - 1 } }
      else .ok c
    else if c.current.code = some ArrowRight ∨ c.current.code = some ArrowDown then
      if s ≠ e.length then
        .ok { c with textarea := { c.textarea with selectionStart := s + 1, selectionEnd := s + 1 } }
      else .ok c
    else if c.current.code = some CapsLock then
      if c.state.isCapsLockPressed && !ev.isRepeat then
        let c1 := removeActiveState c
        .ok (toggleCase { c1 with state := { c1.state with isCapsLockPressed := false } })
      else
        match addActiveState c with
        | .error c1 => .error c1
        | .ok c1 => .ok (toggleCase { c1 with state := { c1.state with isCapsLockPressed := true } })
    else if c.current.code = some ShiftLeft ∨ c.current.code = some ShiftRight then
      if !(c.state.isShiftRightPressed || c.state.isShiftLeftPressed) then
        match addActiveState c with
        | .error c1 => .error c1
        | .ok c1 =>
          let c2 :=
            if c1.current.code = some ShiftLeft
            then { c1 with state := { c1.state with isShiftLeftPressed := true } }
            else { c1 with state := { c1.state with isShiftRightPressed := true } }
          .ok (toggleCase c2)
      else .ok c
    else
      let c1 :=
        if c.current.code = some Tab ∨ c.current.code = some Enter
        then { c with current := { c.current with char := some (if c.current.code = some Tab then unit 9 else unit 10) } }
        else c
      if c1.current.code ∉ [some AltLeft, some AltRight, some ControlLeft, some ControlRight]
      then updateBuffer c1
      else .ok c1

/-- The method `keyDownHandler`. -/
def keyDownHandler (c : Controller) (e : KeyboardEvent) : Result :=
  let found := getElementsByClassName c.element e.code
  let c1 := { c with current := { c.current with event := some (.key e), code := some e.code, element := found } }
  match found with
  | none => .ok c1
  | some i =>
    match (c1.element[i]?).bind Cell.shownText with
    | none => .error c1
    | some ch =>
      match processKeyPress { c1 with current := { c1.current with char := some ch } } with
      | .error c2 => .error c2
      | .ok c2 =>
        if c2.current.code ∉ [some CapsLock, some ShiftLeft, some ShiftRight]
        then addActiveState c2
        else .ok c2

/-- The method `keyUpHandler`. -/
def keyUpHandler (c : Controller) (e : KeyboardEvent) : Controller :=
  match getElementsByClassName c.element e.code with
  | none => c
  | some i =>
    let c1 := { c with current := { c.current with element := some i } }
    let c2 := if e.code ≠ CapsLock then removeActiveState c1 else c1
    if e.code = ShiftLeft ∨ e.code = ShiftRight then
      let c3 :=
        if e.code = ShiftLeft
        then removeActiveState { c2 with state := { c2.state with isShiftLeftPressed := false } }
        else removeActiveState { c2 with state := { c2.state with isShiftRightPressed := false } }
      toggleCase c3
    else c2

/-- The cell and the `textContent` of a pointer target with tag `SPAN`. -/
def Target.span (cells : List Cell) : Target → Option (Nat × Str)
  | .caseSpan i lang k => (cells[i]?).map (fun x => (i, (x.key.get lang).get k))
  | .langSpan i lang => (cells[i]?).map (fun x => (i, (CASING.map (x.key.get lang).get).flatten))
  | _ => none

/-- The method `mouseDownHandler`; the listener sits on the keyboard element. -/
def mouseDownHandler (c : Controller) (e : MouseEvent) : Result :=
  match e.target.span c.element with
  | none => .ok c
  | some (i, text) =>
    let code := (c.element[i]?).map (fun x => x.key.className)
    let c1 := { c with current := { event := some (.mouse e), element := some i, code := code, char := some text } }
    match processKeyPress c1 with
    | .error c2 => .error c2
    | .ok c2 =>
      let r := if c2.current.code ≠ some CapsLock then addActiveState c2 else .ok c2
      match r with
      | .error c3 => .error c3
      | .ok c3 => .ok { c3 with previous := c3.current }

/-- The value of `e.target.closest('div')`: `none` when the target is not on the
page, otherwise `some none` for `null`, `some (some (inl i))` for key cell `i`
and `some (some (inr ()))` for a `div` that is not a key cell. -/
def Target.closestDiv (cells : List Cell) : Target → Option (Option (Nat ⊕ Unit))
  | .caseSpan i _ _ => (cells[i]?).map (fun _ => some (.inl i))
  | .langSpan i _ => (cells[i]?).map (fun _ => some (.inl i))
  | .keyDiv i => (cells[i]?).map (fun _ => some (.inl i))
  | .otherDiv => some (some (.inr ()))
  | .noDiv => some none

/-- The release bookkeeping of `mouseUpHandler` once `current.code` is known. -/
def mouseUpRelease (c : Controller) : Controller :=
  if c.current.code ≠ some CapsLock then
    let c1 := removeActiveState c
    let c2 :=
      if c1.state.isShiftLeftPressed ∧ c1.current.code = some ShiftLeft
      then toggleCase { c1 with state := { c1.state with isShiftLeftPressed := false } }
      else c1
    if c2.state.isShiftRightPressed ∧ c2.current.code = some ShiftRight
    then toggleCase { c2 with state := { c2.state with isShiftRightPressed := false } }
    else c2
  else c

/-- The method `mouseUpHandler`; the listener sits on the document. -/
def mouseUpHandler (c : Controller) (e : MouseEvent) : Controller :=
  match e.target.closestDiv c.element with
  | none => c
  | some none =>
    { c with current := { c.current with event := some (.mouse e), element := none } }
  | some (some (.inl i)) =>
    let code := (c.element[i]?).map (fun x => x.key.className)
    mouseUpRelease { c with current := { c.current with event := some (.mouse e), element := some i, code := code } }
  | some (some (.inr ())) =>
    mouseUpRelease { c with current := c.previous }

/-- The method `initPage`: one cell per entry of `ROWS`, row after row, each
with a hidden `span.ru` and a shown `span.en`; then the locale restore. -/
def initPage (c : Controller) : Controller :=
  let cells := ROWS.flatMap (fun row => row.map (fun k =>
    ({ key := k, active := false, ru := makeSpan true, en := makeSpan false } : Cell)))
  let c1 := { c with textarea := { value := [], selectionStart := 0, selectionEnd := 0 }, element := cells }
  if c1.storedLang = some RU.str then toggleLang c1 else c1

/-! ## Event sequences -/

/-- What the main loop can run after start-up: the four listeners, and
`toggleLang`. -/
inductive Action where
  | keyDown (e : KeyboardEvent)
  | keyUp (e : KeyboardEvent)
  | mouseDown (e : MouseEvent)
  | mouseUp (e : MouseEvent)
  | toggleLang
deriving DecidableEq, Repr

/-- The state a handler leaves, whether it returned or threw. -/
def Result.after : Result → Controller
  | .ok c => c
  | .error c => c

def step (c : Controller) : Action → Controller
  | .keyDown e => (keyDownHandler c e).after
  | .keyUp e => keyUpHandler c e
  | .mouseDown e => (mouseDownHandler c e).after
  | .mouseUp e => mouseUpHandler c e
  | .toggleLang => toggleLang c

/-- The state after start-up (`new Controller()` and `initPage()`) with
`stored` in the store, followed by the actions `as` in order. -/
def run (stored : Option Str) (as : List Action) : Controller :=
  as.foldl step (initPage (newController stored))

/-- States the page can be in. -/
def Reachable (c : Controller) : Prop :=
  ∃ stored as, c = run stored as


/-! ## Specification-side definitions and invariants -/

/-- The table of the specification: the active case as a function of
"CapsLock is on" and "a Shift key is down". -/
def specCase (capsLockOn shiftActive : Bool) : Case :=
  match capsLockOn, shiftActive with
  | false, false => CASE_DOWN
  | false, true => CASE_UP
  | true, false => CAPS
  | true, true => SHIFT_CAPS

/-- The locale that is not `lang`. -/
def otherLang : Lang → Lang
  | .en => .ru
  | .ru => .en

/-- Class state of a locale span that is shown with exactly the case span `k`
shown. -/
def shownSpan (k : Case) : LangSpan :=
  { hidden := false
    caseDown := decide (k ≠ CASE_DOWN)
    caseUp := decide (k ≠ CASE_UP)
    caps := decide (k ≠ CAPS)
    shiftCaps := decide (k ≠ SHIFT_CAPS) }

/-- Class state of a locale span that is hidden together with all its case
spans. -/
def hiddenSpan : LangSpan :=
  { hidden := true, caseDown := true, caseUp := true, caps := true, shiftCaps := true }

/-- Well-formedness of the page: the grid is the one built from `ROWS`, in
every cell the span of the active locale shows exactly the span of
`state.case`, and the span of the other locale is hidden throughout. -/
structure PageOk (c : Controller) : Prop where
  keys : c.element.map Cell.key = ROWS.flatten
  shown : ∀ x ∈ c.element, x.langSpan c.state.lang = shownSpan c.state.case
  hid : ∀ x ∈ c.element, x.langSpan (otherLang c.state.lang) = hiddenSpan

/-- The invariant of the case/shift state machine: `state.case` is the entry of
the table for the current flags. -/
def CaseOk (c : Controller) : Prop :=
  c.state.case = specCase c.state.isCapsLockPressed
    (c.state.isShiftLeftPressed || c.state.isShiftRightPressed)

/-- The cursor lies inside the text: `0 <= selectionStart <= value.length`. -/
def CursorOk (t : Textarea) : Prop :=
  t.selectionStart ≤ t.value.length

instance (t : Textarea) : Decidable (CursorOk t) :=
  inferInstanceAs (Decidable (t.selectionStart ≤ t.value.length))

/-- A property of controller states that every primitive update of the
handlers keeps: a locale toggle, a case recomputation after a change of the
modifier flags, a change of the `active` class, a change of the text field
that keeps the cursor inside the text, and a change of the key records. -/
structure Closed (P : Controller → Prop) : Prop where
  lang : ∀ c, P c → P (toggleLang c)
  flags : ∀ c st, P c → st.case = c.state.case → st.lang = c.state.lang →
    P (toggleCase { c with state := st })
  active : ∀ c i b, P c → P { c with element := setActive c.element i b }
  text : ∀ c t, P c → (CursorOk c.textarea → CursorOk t) → P { c with textarea := t }
  current : ∀ c r, P c → P { c with current := r }
  previous : ∀ c r, P c → P { c with previous := r }

/-- A sample state for concrete checks: the text `ab` with the cursor between
the two letters, and `current` holding a key-down of `code` with the resolved
character `ch`. -/
def sampleState (code : Str) (ch : Str) : Controller :=
  { newController none with
    textarea := { value := "ab".toList, selectionStart := 1, selectionEnd := 1 }
    current :=
      { element := none
        code := some code
        event := some (.key { code := code, ctrlKey := false, altKey := false, isRepeat := false })
        char := some ch } }

/-- The entry of `ROWS` for the physical key `KeyA`. -/
def sampleKey : Key :=
  makeKey "KeyA".toList (some ("a".toList, none)) (some ("ф".toList, none))

/-- A key-down, key-up or auto-repeat event of the key `code` without Ctrl or
Alt held. -/
def keyEvent (code : Str) (isRepeat : Bool) : KeyboardEvent :=
  { code := code, ctrlKey := false, altKey := false, isRepeat := isRepeat }

/-- A property of controller states kept by each update the handlers make
apart from the locale toggle, with the modifier flags changed only the way the
handlers change them: CapsLock set or cleared, a Shift flag set while neither
is set, a Shift flag cleared; each followed by the case recomputation. -/
structure Kept (P : Controller → Prop) : Prop where
  caps : ∀ c b, P c →
    P (toggleCase { c with state := { c.state with isCapsLockPressed := b } })
  shiftLeftDown : ∀ c, P c →
    c.state.isShiftLeftPressed = false → c.state.isShiftRightPressed = false →
    P (toggleCase { c with state := { c.state with isShiftLeftPressed := true } })
  shiftRightDown : ∀ c, P c →
    c.state.isShiftLeftPressed = false → c.state.isShiftRightPressed = false →
    P (toggleCase { c with state := { c.state with isShiftRightPressed := true } })
  shiftLeftUp : ∀ c, P c →
    P (toggleCase { c with state := { c.state with isShiftLeftPressed := false } })
  shiftRightUp : ∀ c, P c →
    P (toggleCase { c with state := { c.state with isShiftRightPressed := false } })
  active : ∀ c i b, P c → P { c with element := setActive c.element i b }
  text : ∀ c t, P c → P { c with textarea := t }
  current : ∀ c r, P c → P { c with current := r }
  previous : ∀ c r, P c → P { c with previous := r }

/-- The persisted flag names the locale `ru` exactly when `ru` is active. -/
def LangSync (c : Controller) : Prop :=
  c.storedLang = some RU.str ↔ c.state.lang = RU

/-- A key-down event of the key `code` with both Ctrl and Alt held. -/
def chordEvent (code : Str) : KeyboardEvent :=
  { code := code, ctrlKey := true, altKey := true, isRepeat := false }

/-- A sample state whose pending event is a key-down of `AltLeft` with Ctrl
held. -/
def sampleChordState : Controller :=
  { sampleState AltLeft "Alt".toList with
    current :=
      { element := none
        code := some AltLeft
        event := some (.key (chordEvent AltLeft))
        char := some "Alt".toList } }

/-- The cell of the key `CapsLock` as `initPage` builds it; it is cell 29 of
the grid. -/
def capsLockCell : Cell :=
  { key := makeKey CapsLock none none, active := false, ru := makeSpan true, en := makeSpan false }

/-- A pointer press on the shown case span of the cell numbered `i`, in the
locale `en` and the case `caseDown`, without Ctrl or Alt held. -/
def pressOn (i : Nat) : MouseEvent :=
  { target := .caseSpan i EN CASE_DOWN, ctrlKey := false, altKey := false }

/-- A pointer event on `target` without Ctrl or Alt held. -/
def pointerAt (target : Target) : MouseEvent :=
  { target := target, ctrlKey := false, altKey := false }

/-- The class names on the page that do not name a key: those of the rows, of
the cells, of the highlight, of the locale spans and of the case spans. -/
def styleClasses : List Str :=
  ["row".toList, "key".toList, "active".toList, "hidden".toList, "ru".toList, "en".toList,
   "caseDown".toList, "caseUp".toList, "caps".toList, "shiftCaps".toList]

/-- A physical-key identifier (a value of `KeyboardEvent.code`) holds no white
space and is none of the style classes of the page. -/
def isKeyIdentifier (code : Str) : Prop :=
  code ∉ styleClasses ∧ ∀ ch ∈ code, ch.toNat ∉ [9, 10, 12, 13, 32]

instance (code : Str) : Decidable (isKeyIdentifier code) :=
  inferInstanceAs (Decidable (code ∉ styleClasses ∧ ∀ ch ∈ code, ch.toNat ∉ [9, 10, 12, 13, 32]))

/-- At most one Shift flag is set. -/
def NotBothShifts (c : Controller) : Prop :=
  (c.state.isShiftLeftPressed && c.state.isShiftRightPressed) = false

/-- The cell of the key `ShiftLeft` in the locale `en`, with the highlight
`active` and the case span `k` shown; it is cell 42 of the grid. -/
def shiftLeftCell (active : Bool) (k : Case) : Cell :=
  { key := makeKey ShiftLeft (some ("Shift".toList, none)) none
    active := active
    ru := hiddenSpan
    en := shownSpan k }

/-- The function `makeLocale(u, v)` with the library call `u.toUpperCase()`
taken as the parameter `up`; `makeLocale` is this function at `toUpperCase`. -/
def makeLocaleWith (up : Str → Str) (u : Str) (v : Option Str) : Locale :=
  match v with
  | none =>
    let uUp := if up u ≠ u then up u else u
    makeObj u uUp uUp u
  | some [] =>
    let uUp := if up u ≠ u then up u else u
    makeObj u uUp uUp u
  | some w => makeObj u w u w

/-! ## Lemmas -/

theorem slice_zero (t : Str) (s : Nat) : slice t 0 s = t.take s := by
  simp [slice]

theorem slice_to_end (t : Str) (s : Nat) : slice t s t.length = t.drop s := by
  simp [slice]

theorem ROWS_length : ROWS.flatten.length = 63 := by decide

theorem ROWS_nodup : (ROWS.flatten.map Key.className).Nodup := by decide

theorem setActive_map_key (cells : List Cell) (i : Nat) (b : Bool) :
    (setActive cells i b).map Cell.key = cells.map Cell.key := by
  induction cells generalizing i with
  | nil => simp [setActive]
  | cons x xs ih =>
    cases i with
    | zero => simp [setActive]
    | succ j => simp [setActive, ih]

theorem setActive_forall (P : Cell → Prop) (hP : ∀ x b, P x → P { x with active := b })
    (cells : List Cell) (i : Nat) (b : Bool) (h : ∀ x ∈ cells, P x) :
    ∀ x ∈ setActive cells i b, P x := by
  induction cells generalizing i with
  | nil => simp [setActive]
  | cons y ys ih =>
    cases i with
    | zero =>
      intro x hx
      simp only [setActive, List.mem_cons] at hx
      rcases hx with rfl | hx
      · exact hP _ _ (h y (List.mem_cons_self _ _))
      · exact h x (List.mem_cons_of_mem _ hx)
    | succ j =>
      intro x hx
      simp only [setActive, List.mem_cons] at hx
      rcases hx with rfl | hx
      · exact h _ (List.mem_cons_self _ _)
      · exact ih j (fun z hz => h z (List.mem_cons_of_mem _ hz)) x hx

theorem setActive_langSpan (cells : List Cell) (i : Nat) (b : Bool) (lang : Lang) (l : LangSpan)
    (h : ∀ x ∈ cells, x.langSpan lang = l) :
    ∀ x ∈ setActive cells i b, x.langSpan lang = l :=
  setActive_forall (fun x => x.langSpan lang = l)
    (fun x b hx => by cases lang <;> simpa [Cell.langSpan] using hx) cells i b h

theorem pageOk_setActive (c : Controller) (i : Nat) (b : Bool) (h : PageOk c) :
    PageOk { c with element := setActive c.element i b } where
  keys := by simpa [setActive_map_key] using h.keys
  shown := setActive_langSpan _ _ _ _ _ h.shown
  hid := setActive_langSpan _ _ _ _ _ h.hid

theorem removeActiveState_state (c : Controller) : (removeActiveState c).state = c.state := by
  unfold removeActiveState
  split <;> rfl

theorem removeActiveState_textarea (c : Controller) :
    (removeActiveState c).textarea = c.textarea := by
  unfold removeActiveState
  split <;> rfl

theorem removeActiveState_current (c : Controller) :
    (removeActiveState c).current = c.current := by
  unfold removeActiveState
  split <;> rfl

theorem removeActiveState_previous (c : Controller) :
    (removeActiveState c).previous = c.previous := by
  unfold removeActiveState
  split <;> rfl

theorem removeActiveState_storedLang (c : Controller) :
    (removeActiveState c).storedLang = c.storedLang := by
  unfold removeActiveState
  split <;> rfl

theorem pageOk_length (c : Controller) (h : PageOk c) : c.element.length = 63 := by
  have := congrArg List.length h.keys
  simpa [ROWS_length] using this

theorem pageOk_isEmpty (c : Controller) (h : PageOk c) : c.element.isEmpty = false := by
  have hl := pageOk_length c h
  cases hc : c.element with
  | nil => simp [hc] at hl
  | cons x xs => rfl

theorem otherLang_otherLang (lang : Lang) : otherLang (otherLang lang) = lang := by
  cases lang <;> rfl

theorem flip_eq_otherLang (lang : Lang) : (if lang = EN then RU else EN) = otherLang lang := by
  cases lang <;> rfl

theorem showCase_key (x : Cell) (lang : Lang) (k : Case) : (x.showCase lang k).key = x.key := by
  cases lang <;> rfl

theorem showCase_langSpan (x : Cell) (lang : Lang) (k : Case)
    (h : (x.langSpan lang).hidden = false) : (x.showCase lang k).langSpan lang = shownSpan k := by
  cases x with
  | mk key active ru en =>
    cases ru
    cases en
    cases lang <;> cases k <;>
      simp_all [Cell.showCase, Cell.langSpan, Cell.setLangSpan, LangSpan.hideSpans,
        LangSpan.setHidden, shownSpan]

theorem showCase_langSpan_other (x : Cell) (lang : Lang) (k : Case) :
    (x.showCase lang k).langSpan (otherLang lang) = x.langSpan (otherLang lang) := by
  cases lang <;> rfl

theorem toggleHidden_key (x : Cell) (lang : Lang) (k : Case) :
    (x.toggleHidden lang k).key = x.key := by
  cases lang <;> rfl

theorem toggleHidden_langSpan_other (x : Cell) (lang : Lang) (k : Case) :
    (x.toggleHidden lang k).langSpan (otherLang lang) = x.langSpan (otherLang lang) := by
  cases lang <;> rfl

theorem toggleHidden_langSpan_other2 (x : Cell) (lang : Lang) (k : Case) :
    (x.toggleHidden (otherLang lang) k).langSpan lang = x.langSpan lang := by
  cases lang <;> rfl

theorem toggleHidden_shown (x : Cell) (lang : Lang) (k : Case)
    (h : x.langSpan lang = shownSpan k) : (x.toggleHidden lang k).langSpan lang = hiddenSpan := by
  cases x with
  | mk key active ru en =>
    cases lang <;> cases k <;>
      simp_all [Cell.toggleHidden, Cell.langSpan, Cell.setLangSpan, LangSpan.isHidden,
        LangSpan.setHidden, shownSpan, hiddenSpan]

theorem toggleHidden_hidden (x : Cell) (lang : Lang) (k : Case)
    (h : x.langSpan lang = hiddenSpan) : (x.toggleHidden lang k).langSpan lang = shownSpan k := by
  cases x with
  | mk key active ru en =>
    cases lang <;> cases k <;>
      simp_all [Cell.toggleHidden, Cell.langSpan, Cell.setLangSpan, LangSpan.isHidden,
        LangSpan.setHidden, shownSpan, hiddenSpan]

/-- The index computed by `toggleCase` selects the entry of the table. -/
theorem casing_index (caps shl shr : Bool) :
    CASING.getD (if shl || shr then (if caps then 0 + 2 else 0) + 1 else (if caps then 0 + 2 else 0))
      CASE_DOWN = specCase caps (shl || shr) := by
  cases caps <;> cases shl <;> cases shr <;> rfl

theorem toggleCase_state (c : Controller) (h : c.element.isEmpty = false) :
    (toggleCase c).state = { c.state with
      case := (specCase c.state.isCapsLockPressed (c.state.isShiftLeftPressed || c.state.isShiftRightPressed)) } := by
  simp only [toggleCase, h, casing_index]
  simp

theorem toggleCase_textarea (c : Controller) : (toggleCase c).textarea = c.textarea := rfl

theorem toggleCase_current (c : Controller) : (toggleCase c).current = c.current := rfl

theorem toggleCase_previous (c : Controller) : (toggleCase c).previous = c.previous := rfl

theorem toggleCase_storedLang (c : Controller) : (toggleCase c).storedLang = c.storedLang := rfl

theorem pageOk_toggleCase (c : Controller) (h : PageOk c) : PageOk (toggleCase c) := by
  have hne := pageOk_isEmpty c h
  have hst := toggleCase_state c hne
  constructor
  · simpa [toggleCase, Function.comp_def, showCase_key] using h.keys
  · rw [hst]
    simp only [toggleCase, casing_index, List.forall_mem_map]
    intro x hx
    exact showCase_langSpan _ _ _ (by rw [h.shown x hx]; rfl)
  · rw [hst]
    simp only [toggleCase, casing_index, List.forall_mem_map]
    intro x hx
    rw [showCase_langSpan_other]
    exact h.hid x hx

theorem caseOk_toggleCase (c : Controller) (h : PageOk c) : CaseOk (toggleCase c) := by
  unfold CaseOk
  rw [toggleCase_state c (pageOk_isEmpty c h)]

theorem toggleLang_state (c : Controller) :
    (toggleLang c).state = { c.state with lang := otherLang c.state.lang } := by
  simp [toggleLang, updateLangItems, flip_eq_otherLang]

theorem toggleLang_textarea (c : Controller) : (toggleLang c).textarea = c.textarea := rfl

theorem toggleLang_current (c : Controller) : (toggleLang c).current = c.current := rfl

theorem toggleLang_previous (c : Controller) : (toggleLang c).previous = c.previous := rfl

theorem pageOk_toggleLang (c : Controller) (h : PageOk c) : PageOk (toggleLang c) := by
  constructor
  · simpa [toggleLang, updateLangItems, Function.comp_def, toggleHidden_key] using h.keys
  · rw [toggleLang_state]
    simp only [toggleLang, updateLangItems, flip_eq_otherLang, List.forall_mem_map, List.map_map,
      Function.comp_def]
    intro x hx
    apply toggleHidden_hidden
    rw [toggleHidden_langSpan_other]
    exact h.hid x hx
  · rw [toggleLang_state]
    simp only [toggleLang, updateLangItems, flip_eq_otherLang, List.forall_mem_map, List.map_map,
      otherLang_otherLang, Function.comp_def]
    intro x hx
    rw [toggleHidden_langSpan_other2]
    exact toggleHidden_shown _ _ _ (h.shown x hx)

theorem caseOk_toggleLang (c : Controller) (h : CaseOk c) : CaseOk (toggleLang c) := by
  unfold CaseOk at *
  rw [toggleLang_state]
  exact h

theorem pageOk_newPage (stored : Option Str) :
    PageOk { newController stored with
      textarea := { value := [], selectionStart := 0, selectionEnd := 0 }
      element := ROWS.flatMap (fun row => row.map (fun k =>
        ({ key := k, active := false, ru := makeSpan true, en := makeSpan false } : Cell))) } := by
  constructor
  · simp [List.flatMap, Function.comp_def]
  · simp only [List.mem_flatMap, List.mem_map]
    rintro x ⟨row, -, k, -, rfl⟩
    rfl
  · simp only [List.mem_flatMap, List.mem_map]
    rintro x ⟨row, -, k, -, rfl⟩
    rfl

theorem pageOk_initPage (stored : Option Str) : PageOk (initPage (newController stored)) := by
  unfold initPage
  simp only []
  split
  · exact pageOk_toggleLang _ (pageOk_newPage stored)
  · exact pageOk_newPage stored

theorem caseOk_initPage (stored : Option Str) : CaseOk (initPage (newController stored)) := by
  unfold initPage
  simp only []
  split
  · exact caseOk_toggleLang _ rfl
  · rfl

theorem cursorOk_initPage (stored : Option Str) :
    CursorOk (initPage (newController stored)).textarea := by
  unfold initPage
  simp only []
  split
  · rw [toggleLang_textarea]
    exact Nat.le_refl 0
  · exact Nat.le_refl 0

theorem addActiveState_ok (c c1 : Controller) (h : addActiveState c = .ok c1) :
    ∃ i, c.current.element = some i ∧ c1 = { c with element := setActive c.element i true } := by
  unfold addActiveState at h
  split at h
  · cases h
  · rename_i i hi
    exact ⟨i, hi, by cases h; rfl⟩

theorem addActiveState_error (c c1 : Controller) (h : addActiveState c = .error c1) : c1 = c := by
  unfold addActiveState at h
  split at h
  · cases h; rfl
  · cases h

theorem addActiveState_some (c : Controller) (i : Nat) (h : c.current.element = some i) :
    addActiveState c = .ok { c with element := setActive c.element i true } := by
  simp [addActiveState, h]

/-! ### Properties kept by every handler -/

theorem closed_addActiveState (P : Controller → Prop) (hP : Closed P) (c : Controller)
    (h : P c) : P (addActiveState c).after := by
  unfold addActiveState
  split
  · exact h
  · exact hP.active _ _ _ h

theorem closed_removeActiveState (P : Controller → Prop) (hP : Closed P) (c : Controller)
    (h : P c) : P (removeActiveState c) := by
  unfold removeActiveState
  split
  · exact h
  · split
    · exact hP.active c _ _ h
    · split
      · exact hP.active { c with element := setActive c.element _ false } _ _ (hP.active c _ _ h)
      · exact hP.active c _ _ h

theorem closed_updateBuffer (P : Controller → Prop) (hP : Closed P) (c : Controller)
    (h : P c) : P (updateBuffer c).after := by
  unfold updateBuffer
  simp only []
  split
  · rename_i hs
    split
    · apply hP.text _ _ h
      intro _
      simp [CursorOk, slice]
      omega
    · apply hP.text _ _ h
      intro _
      simp [CursorOk, slice]
      omega
  · rename_i hs
    apply hP.text _ _ h
    intro h1
    exact absurd h1 hs

theorem chord_textarea (c : Controller) (ev : DomEvent) : (chord c ev).textarea = c.textarea := by
  unfold chord
  split <;> rfl

theorem chord_current (c : Controller) (ev : DomEvent) : (chord c ev).current = c.current := by
  unfold chord
  split <;> rfl

theorem chord_previous (c : Controller) (ev : DomEvent) : (chord c ev).previous = c.previous := by
  unfold chord
  split <;> rfl

theorem chord_flags (c : Controller) (ev : DomEvent) :
    (chord c ev).state.isShiftLeftPressed = c.state.isShiftLeftPressed
    ∧ (chord c ev).state.isShiftRightPressed = c.state.isShiftRightPressed
    ∧ (chord c ev).state.isCapsLockPressed = c.state.isCapsLockPressed
    ∧ (chord c ev).state.case = c.state.case := by
  unfold chord
  split
  · rw [toggleLang_state]
    exact ⟨rfl, rfl, rfl, rfl⟩
  · exact ⟨rfl, rfl, rfl, rfl⟩

theorem closed_chord (P : Controller → Prop) (hP : Closed P) (c : Controller) (ev : DomEvent)
    (h : P c) : P (chord c ev) := by
  unfold chord
  split
  · exact hP.lang _ h
  · exact h

theorem chord_code (c : Controller) (ev : DomEvent) :
    (chord c ev).current.code = c.current.code := by
  rw [chord_current]

theorem processKeyPress_backspace (c0 : Controller) (ev : DomEvent)
    (hev : c0.current.event = some ev) (hcode : c0.current.code = some Backspace) :
    processKeyPress c0 = .ok
      (if c0.textarea.selectionStart ≠ 0 then
        { chord c0 ev with textarea :=
          { value := c0.textarea.value.take (c0.textarea.selectionStart - 1)
              ++ c0.textarea.value.drop c0.textarea.selectionStart
            selectionStart := c0.textarea.selectionStart - 1
            selectionEnd := c0.textarea.selectionStart - 1 } }
      else chord c0 ev) := by
  unfold processKeyPress
  simp only [hev, chord_code, chord_textarea, hcode, if_true, slice_zero, slice_to_end]
  split <;> rfl

theorem processKeyPress_delete (c0 : Controller) (ev : DomEvent)
    (hev : c0.current.event = some ev) (hcode : c0.current.code = some Delete) :
    processKeyPress c0 = .ok
      (if c0.textarea.selectionStart ≠ c0.textarea.value.length then
        { chord c0 ev with textarea :=
          { value := c0.textarea.value.take c0.textarea.selectionStart
              ++ c0.textarea.value.drop (c0.textarea.selectionStart + 1)
            selectionStart := c0.textarea.selectionStart
            selectionEnd := c0.textarea.selectionStart } }
      else chord c0 ev) := by
  have hn : (some Delete : Option Str) ≠ some Backspace := by decide
  unfold processKeyPress
  simp only [hev, chord_code, chord_textarea, hcode, hn, if_true, if_false, slice_zero, slice,
    List.take_length]
  split <;> rfl

theorem closed_processKeyPress (P : Controller → Prop) (hP : Closed P) (c0 : Controller)
    (h0 : P c0) : P (processKeyPress c0).after := by
  unfold processKeyPress
  cases hev : c0.current.event with
  | none => exact h0
  | some ev =>
    simp only []
    have hc : P (chord c0 ev) := closed_chord P hP c0 ev h0
    generalize chord c0 ev = c at hc ⊢
    by_cases h1 : c.current.code = some Backspace
    · rw [if_pos h1]
      by_cases hs : c.textarea.selectionStart ≠ 0
      · rw [if_pos hs]
        apply hP.text _ _ hc
        intro hcur
        simp only [CursorOk, slice, List.length_append, List.length_drop, List.length_take] at hcur ⊢
        omega
      · rw [if_neg hs]
        exact hc
    rw [if_neg h1]
    by_cases h2 : c.current.code = some Delete
    · rw [if_pos h2]
      by_cases hs : c.textarea.selectionStart ≠ c.textarea.value.length
      · rw [if_pos hs]
        apply hP.text _ _ hc
        intro hcur
        simp only [CursorOk, slice, List.length_append, List.length_drop, List.length_take] at hcur ⊢
        omega
      · rw [if_neg hs]
        exact hc
    rw [if_neg h2]
    by_cases h3 : c.current.code = some ArrowLeft ∨ c.current.code = some ArrowUp
    · rw [if_pos h3]
      by_cases hs : c.textarea.selectionStart ≠ 0
      · rw [if_pos hs]
        apply hP.text _ _ hc
        intro hcur
        simp only [CursorOk] at hcur ⊢
        omega
      · rw [if_neg hs]
        exact hc
    rw [if_neg h3]
    by_cases h4 : c.current.code = some ArrowRight ∨ c.current.code = some ArrowDown
    · rw [if_pos h4]
      by_cases hs : c.textarea.selectionStart ≠ c.textarea.value.length
      · rw [if_pos hs]
        apply hP.text _ _ hc
        intro hcur
        simp only [CursorOk] at hcur ⊢
        omega
      · rw [if_neg hs]
        exact hc
    rw [if_neg h4]
    by_cases h5 : c.current.code = some CapsLock
    · rw [if_pos h5]
      by_cases hcaps : (c.state.isCapsLockPressed && !ev.isRepeat) = true
      · rw [if_pos hcaps]
        exact hP.flags _ _ (closed_removeActiveState P hP c hc)
          (by rw [removeActiveState_state]) (by rw [removeActiveState_state])
      · rw [if_neg hcaps]
        cases ha : addActiveState c with
        | error c1 =>
          rw [addActiveState_error c c1 ha]
          exact hc
        | ok c1 =>
          obtain ⟨i, -, rfl⟩ := addActiveState_ok c c1 ha
          exact hP.flags _ _ (hP.active c i true hc) rfl rfl
    rw [if_neg h5]
    by_cases h6 : c.current.code = some ShiftLeft ∨ c.current.code = some ShiftRight
    · rw [if_pos h6]
      by_cases hsh : (!(c.state.isShiftRightPressed || c.state.isShiftLeftPressed)) = true
      · rw [if_pos hsh]
        cases ha : addActiveState c with
        | error c1 =>
          rw [addActiveState_error c c1 ha]
          exact hc
        | ok c1 =>
          obtain ⟨i, -, rfl⟩ := addActiveState_ok c c1 ha
          simp only []
          split
          · exact hP.flags _ _ (hP.active c i true hc) rfl rfl
          · exact hP.flags _ _ (hP.active c i true hc) rfl rfl
      · rw [if_neg hsh]
        exact hc
    rw [if_neg h6]
    have hc1 : P (if c.current.code = some Tab ∨ c.current.code = some Enter
        then { c with current := { c.current with
          char := some (if c.current.code = some Tab then unit 9 else unit 10) } }
        else c) := by
      split
      · exact hP.current _ _ hc
      · exact hc
    generalize (if c.current.code = some Tab ∨ c.current.code = some Enter
        then { c with current := { c.current with
          char := some (if c.current.code = some Tab then unit 9 else unit 10) } }
        else c) = c1 at hc1 ⊢
    split
    · exact closed_updateBuffer P hP c1 hc1
    · exact hc1

theorem removeActiveState_withState (c : Controller) (st : State) :
    removeActiveState { c with state := st } = { removeActiveState c with state := st } := by
  unfold removeActiveState
  simp only []
  split <;> rfl

theorem closed_keyDownHandler (P : Controller → Prop) (hP : Closed P) (c : Controller)
    (e : KeyboardEvent) (h : P c) : P (keyDownHandler c e).after := by
  unfold keyDownHandler
  simp only []
  have h1 := hP.current c { c.current with
    event := some (.key e), code := some e.code,
    element := getElementsByClassName c.element e.code } h
  split
  · exact h1
  · split
    · exact h1
    · rename_i ch _
      have h2 := closed_processKeyPress P hP _ (hP.current _
        { element := getElementsByClassName c.element e.code, code := some e.code,
          event := some (.key e), char := some ch } h1)
      split
      · rename_i c2 hc2
        rw [hc2] at h2
        exact h2
      · rename_i c2 hc2
        rw [hc2] at h2
        split
        · exact closed_addActiveState P hP c2 h2
        · exact h2

theorem closed_keyUpHandler (P : Controller → Prop) (hP : Closed P) (c : Controller)
    (e : KeyboardEvent) (h : P c) : P (keyUpHandler c e) := by
  unfold keyUpHandler
  split
  · exact h
  · rename_i i _
    simp only []
    have h1 : P (if e.code ≠ CapsLock
        then removeActiveState { c with current := { c.current with element := some i } }
        else { c with current := { c.current with element := some i } }) := by
      split
      · exact closed_removeActiveState P hP _ (hP.current _ _ h)
      · exact hP.current _ _ h
    generalize (if e.code ≠ CapsLock
        then removeActiveState { c with current := { c.current with element := some i } }
        else { c with current := { c.current with element := some i } }) = c2 at h1 ⊢
    split
    · split
      · rw [removeActiveState_withState]
        exact hP.flags _ _ (closed_removeActiveState P hP c2 h1)
          (by rw [removeActiveState_state]) (by rw [removeActiveState_state])
      · rw [removeActiveState_withState]
        exact hP.flags _ _ (closed_removeActiveState P hP c2 h1)
          (by rw [removeActiveState_state]) (by rw [removeActiveState_state])
    · exact h1

theorem closed_mouseDownHandler (P : Controller → Prop) (hP : Closed P) (c : Controller)
    (e : MouseEvent) (h : P c) : P (mouseDownHandler c e).after := by
  unfold mouseDownHandler
  split
  · exact h
  · rename_i i text _
    simp only []
    have h2 := closed_processKeyPress P hP _ (hP.current c
      { event := some (.mouse e), element := some i,
        code := (c.element[i]?).map (fun x => x.key.className), char := some text } h)
    split
    · rename_i c2 hc2
      rw [hc2] at h2
      exact h2
    · rename_i c2 hc2
      rw [hc2] at h2
      have h3 : P (if c2.current.code ≠ some CapsLock then addActiveState c2 else .ok c2).after := by
        split
        · exact closed_addActiveState P hP c2 h2
        · exact h2
      split
      · rename_i c3 hc3
        rw [hc3] at h3
        exact h3
      · rename_i c3 hc3
        rw [hc3] at h3
        exact hP.previous _ _ h3

theorem closed_mouseUpRelease (P : Controller → Prop) (hP : Closed P) (c : Controller)
    (h : P c) : P (mouseUpRelease c) := by
  unfold mouseUpRelease
  split
  · simp only []
    have h1 := closed_removeActiveState P hP c h
    generalize removeActiveState c = c1 at h1 ⊢
    have h2 : P (if c1.state.isShiftLeftPressed = true ∧ c1.current.code = some ShiftLeft
        then toggleCase { c1 with state := { c1.state with isShiftLeftPressed := false } }
        else c1) := by
      split
      · exact hP.flags _ _ h1 rfl rfl
      · exact h1
    generalize (if c1.state.isShiftLeftPressed = true ∧ c1.current.code = some ShiftLeft
        then toggleCase { c1 with state := { c1.state with isShiftLeftPressed := false } }
        else c1) = c2 at h2 ⊢
    split
    · exact hP.flags _ _ h2 rfl rfl
    · exact h2
  · exact h

theorem closed_mouseUpHandler (P : Controller → Prop) (hP : Closed P) (c : Controller)
    (e : MouseEvent) (h : P c) : P (mouseUpHandler c e) := by
  unfold mouseUpHandler
  split
  · exact h
  · exact hP.current _ _ h
  · exact closed_mouseUpRelease P hP _ (hP.current _ _ h)
  · exact closed_mouseUpRelease P hP _ (hP.current _ _ h)

theorem closed_step (P : Controller → Prop) (hP : Closed P) (c : Controller) (a : Action)
    (h : P c) : P (step c a) := by
  cases a with
  | keyDown e => exact closed_keyDownHandler P hP c e h
  | keyUp e => exact closed_keyUpHandler P hP c e h
  | mouseDown e => exact closed_mouseDownHandler P hP c e h
  | mouseUp e => exact closed_mouseUpHandler P hP c e h
  | toggleLang => exact hP.lang c h

theorem closed_foldl (P : Controller → Prop) (hP : Closed P) (as : List Action) :
    ∀ c, P c → P (as.foldl step c) := by
  induction as with
  | nil => intro c h; exact h
  | cons a as ih => intro c h; exact ih _ (closed_step P hP c a h)

theorem closed_run (P : Controller → Prop) (hP : Closed P)
    (hinit : ∀ stored, P (initPage (newController stored)))
    (stored : Option Str) (as : List Action) : P (run stored as) :=
  closed_foldl P hP as _ (hinit stored)

theorem closed_pageOk : Closed (fun c => PageOk c ∧ CaseOk c) where
  lang := fun c h => ⟨pageOk_toggleLang c h.1, caseOk_toggleLang c h.2⟩
  flags := fun c st h h1 h2 => by
    have hp : PageOk { c with state := st } :=
      { keys := h.1.keys
        shown := by simpa [h1, h2] using h.1.shown
        hid := by simpa [h1, h2] using h.1.hid }
    exact ⟨pageOk_toggleCase _ hp, caseOk_toggleCase _ hp⟩
  active := fun c i b h => ⟨pageOk_setActive c i b h.1, h.2⟩
  text := fun c t h _ => ⟨⟨h.1.keys, h.1.shown, h.1.hid⟩, h.2⟩
  current := fun c r h => ⟨⟨h.1.keys, h.1.shown, h.1.hid⟩, h.2⟩
  previous := fun c r h => ⟨⟨h.1.keys, h.1.shown, h.1.hid⟩, h.2⟩

theorem closed_cursorOk : Closed (fun c => CursorOk c.textarea) where
  lang := fun _ h => h
  flags := fun _ _ h _ _ => h
  active := fun _ _ _ h => h
  text := fun _ _ h ht => ht h
  current := fun _ _ h => h
  previous := fun _ _ h => h

theorem run_pageOk (stored : Option Str) (as : List Action) : PageOk (run stored as) :=
  (closed_run _ closed_pageOk
    (fun s => ⟨pageOk_initPage s, caseOk_initPage s⟩) stored as).1

theorem run_caseOk (stored : Option Str) (as : List Action) : CaseOk (run stored as) :=
  (closed_run _ closed_pageOk
    (fun s => ⟨pageOk_initPage s, caseOk_initPage s⟩) stored as).2

theorem run_cursorOk (stored : Option Str) (as : List Action) :
    CursorOk (run stored as).textarea :=
  closed_run _ closed_cursorOk cursorOk_initPage stored as

/-! ### The branches of `processKeyPress` -/

theorem processKeyPress_arrowBack (c0 : Controller) (ev : DomEvent)
    (hev : c0.current.event = some ev)
    (hcode : c0.current.code = some ArrowLeft ∨ c0.current.code = some ArrowUp) :
    processKeyPress c0 = .ok
      (if c0.textarea.selectionStart ≠ 0 then
        { chord c0 ev with textarea :=
          { c0.textarea with
            selectionStart := c0.textarea.selectionStart - 1
            selectionEnd := c0.textarea.selectionStart - 1 } }
      else chord c0 ev) := by
  have h1 : c0.current.code ≠ some Backspace := by
    rcases hcode with h | h <;> rw [h] <;> decide
  have h2 : c0.current.code ≠ some Delete := by
    rcases hcode with h | h <;> rw [h] <;> decide
  unfold processKeyPress
  simp only [hev, chord_code, chord_textarea, h1, h2, hcode, if_true, if_false]
  split <;> rfl

theorem processKeyPress_arrowForward (c0 : Controller) (ev : DomEvent)
    (hev : c0.current.event = some ev)
    (hcode : c0.current.code = some ArrowRight ∨ c0.current.code = some ArrowDown) :
    processKeyPress c0 = .ok
      (if c0.textarea.selectionStart ≠ c0.textarea.value.length then
        { chord c0 ev with textarea :=
          { c0.textarea with
            selectionStart := c0.textarea.selectionStart + 1
            selectionEnd := c0.textarea.selectionStart + 1 } }
      else chord c0 ev) := by
  have h1 : c0.current.code ≠ some Backspace := by
    rcases hcode with h | h <;> rw [h] <;> decide
  have h2 : c0.current.code ≠ some Delete := by
    rcases hcode with h | h <;> rw [h] <;> decide
  have h3 : ¬ (c0.current.code = some ArrowLeft ∨ c0.current.code = some ArrowUp) := by
    rcases hcode with h | h <;> rw [h] <;> decide
  unfold processKeyPress
  simp only [hev, chord_code, chord_textarea, h1, h2, h3, hcode, if_true, if_false]
  split <;> rfl

/-- The last branch of `processKeyPress`, for a code that none of the earlier
tests matches. -/
theorem processKeyPress_default (c0 : Controller) (ev : DomEvent)
    (hev : c0.current.event = some ev)
    (hcode : c0.current.code ∉ [some Backspace, some Delete, some ArrowLeft, some ArrowUp,
      some ArrowRight, some ArrowDown, some CapsLock, some ShiftLeft, some ShiftRight]) :
    processKeyPress c0 =
      if c0.current.code ∉ [some AltLeft, some AltRight, some ControlLeft, some ControlRight]
      then updateBuffer
        (if c0.current.code = some Tab ∨ c0.current.code = some Enter
         then { chord c0 ev with current := { c0.current with
            char := some (if c0.current.code = some Tab then unit 9 else unit 10) } }
         else chord c0 ev)
      else .ok
        (if c0.current.code = some Tab ∨ c0.current.code = some Enter
         then { chord c0 ev with current := { c0.current with
            char := some (if c0.current.code = some Tab then unit 9 else unit 10) } }
         else chord c0 ev) := by
  simp only [List.mem_cons, List.mem_singleton, List.not_mem_nil, or_false, not_or] at hcode
  obtain ⟨h1, h2, h3, h4, h5, h6, h7, h8, h9⟩ := hcode
  unfold processKeyPress
  simp only [hev, chord_code, chord_current, h1, h2, h3, h4, h5, h6, h7, h8, h9, or_self, if_false]
  by_cases ht : c0.current.code = some Tab ∨ c0.current.code = some Enter
  · simp only [if_pos ht]
  · simp only [if_neg ht, chord_code]

theorem updateBuffer_some (c : Controller) (ch : Str)
    (hch : c.current.char = some ch)
    (hs : c.textarea.selectionStart ≤ c.textarea.value.length) :
    updateBuffer c = .ok { c with textarea :=
      { value := c.textarea.value.take c.textarea.selectionStart ++ ch
                  ++ c.textarea.value.drop c.textarea.selectionStart
        selectionStart := c.textarea.selectionStart + ch.length
        selectionEnd := c.textarea.selectionStart + ch.length } } := by
  simp [updateBuffer, hch, hs, slice_zero, slice_to_end]

/-! ### Looking a key up on the page -/

theorem findIdx_of_nodup (l : List Cell) (x : Cell)
    (hnd : (l.map (fun y => y.key.className)).Nodup) (hx : x ∈ l) :
    ∃ i, l.findIdx? (fun y => decide (y.key.className = x.key.className)) = some i
      ∧ l[i]? = some x := by
  induction l with
  | nil => cases hx
  | cons y ys ih =>
    rw [List.map_cons, List.nodup_cons] at hnd
    rw [List.findIdx?_cons]
    by_cases hyx : y.key.className = x.key.className
    · refine ⟨0, by simp [hyx], ?_⟩
      rcases List.mem_cons.mp hx with rfl | hmem
      · simp
      · exact absurd (List.mem_map.mpr ⟨x, hmem, hyx.symm⟩) hnd.1
    · have hmem : x ∈ ys := by
        rcases List.mem_cons.mp hx with rfl | hmem
        · exact absurd rfl hyx
        · exact hmem
      obtain ⟨i, hi, hget⟩ := ih hnd.2 hmem
      refine ⟨i + 1, ?_, by simpa using hget⟩
      simp [hyx, hi]

theorem pageOk_lookup (c : Controller) (h : PageOk c) (k : Key) (hk : k ∈ ROWS.flatten) :
    ∃ i x, getElementsByClassName c.element k.className = some i
      ∧ c.element[i]? = some x ∧ x.key = k := by
  rw [← h.keys] at hk
  obtain ⟨x, hx, rfl⟩ := List.mem_map.mp hk
  have hnd : (c.element.map (fun y => y.key.className)).Nodup := by
    have := ROWS_nodup
    rw [← h.keys, List.map_map] at this
    exact this
  obtain ⟨i, hi, hget⟩ := findIdx_of_nodup c.element x hnd hx
  exact ⟨i, x, hi, hget, rfl⟩

theorem pageOk_lookup_none (c : Controller) (h : PageOk c) (code : Str)
    (hcode : code ∉ ROWS.flatten.map Key.className) :
    getElementsByClassName c.element code = none := by
  unfold getElementsByClassName
  rw [List.findIdx?_eq_none_iff]
  intro x hx
  have : x.key.className ∈ ROWS.flatten.map Key.className := by
    rw [← h.keys, List.map_map]
    exact List.mem_map.mpr ⟨x, hx, rfl⟩
  simp only [decide_eq_false_iff_not]
  intro heq
  exact hcode (heq ▸ this)

/-- The second element without `hidden` below a cell is the case span of the
active locale and case. -/
theorem shownText_of (x : Cell) (lang : Lang) (k : Case)
    (h1 : x.langSpan lang = shownSpan k) (h2 : x.langSpan (otherLang lang) = hiddenSpan) :
    x.shownText = some ((x.key.get lang).get k) := by
  cases x with
  | mk key active ru en =>
    cases lang <;> cases k <;>
      (simp only [Cell.langSpan, otherLang] at h1 h2
       subst h1
       subst h2
       rfl)

/-- Below a cell exactly two elements lack `hidden`: the span of the active
locale and, inside it, the span of the active case. -/
theorem shownDescendants_of (x : Cell) (lang : Lang) (k : Case)
    (h1 : x.langSpan lang = shownSpan k) (h2 : x.langSpan (otherLang lang) = hiddenSpan) :
    (x.descendants.filter (fun d => !d.1)).map (fun d => d.2)
      = [(CASING.map (x.key.get lang).get).flatten, (x.key.get lang).get k] := by
  cases x with
  | mk key active ru en =>
    cases lang <;> cases k <;>
      (simp only [Cell.langSpan, otherLang] at h1 h2
       subst h1
       subst h2
       rfl)

theorem pageOk_shownText (c : Controller) (h : PageOk c) (i : Nat) (x : Cell)
    (hx : c.element[i]? = some x) :
    x.shownText = some ((x.key.get c.state.lang).get c.state.case) := by
  have hmem : x ∈ c.element := List.getElem?_mem hx
  exact shownText_of x _ _ (h.shown x hmem) (h.hid x hmem)

theorem run_snoc (stored : Option Str) (as : List Action) (a : Action) :
    run stored (as ++ [a]) = step (run stored as) a := by
  simp [run, List.foldl_append]

/-! ### A key-down on a key of the page -/

/-- The state `keyDownHandler` hands to `processKeyPress`. -/
theorem keyDownHandler_found (c : Controller) (e : KeyboardEvent) (i : Nat) (x : Cell) (ch : Str)
    (hi : getElementsByClassName c.element e.code = some i)
    (hx : c.element[i]? = some x) (hsh : x.shownText = some ch) :
    keyDownHandler c e =
      match processKeyPress { c with current :=
          { element := some i, code := some e.code, event := some (.key e), char := some ch } } with
      | .error c2 => .error c2
      | .ok c2 =>
        if c2.current.code ∉ [some CapsLock, some ShiftLeft, some ShiftRight]
        then addActiveState c2
        else .ok c2 := by
  unfold keyDownHandler
  simp only [hi, hx, hsh, Option.bind]

theorem keyDownHandler_printable (c : Controller) (hp : PageOk c) (hc : CursorOk c.textarea)
    (k : Key) (hk : k ∈ ROWS.flatten)
    (hprint : k.className ∉ [ShiftLeft, ShiftRight, CapsLock, ControlLeft, ControlRight,
      AltLeft, AltRight, Backspace, Delete, ArrowLeft, ArrowUp, ArrowRight, ArrowDown, Tab, Enter])
    (e : KeyboardEvent) (he : e.code = k.className) :
    ∃ c1, keyDownHandler c e = .ok c1
      ∧ c1.textarea =
        { value := c.textarea.value.take c.textarea.selectionStart
            ++ (k.get c.state.lang).get c.state.case
            ++ c.textarea.value.drop c.textarea.selectionStart
          selectionStart := c.textarea.selectionStart + ((k.get c.state.lang).get c.state.case).length
          selectionEnd := c.textarea.selectionStart + ((k.get c.state.lang).get c.state.case).length } := by
  obtain ⟨i, x, hi, hx, rfl⟩ := pageOk_lookup c hp k hk
  have hsh := pageOk_shownText c hp i x hx
  rw [← he] at hi hprint
  simp only [List.mem_cons, List.mem_singleton, List.not_mem_nil, or_false, not_or] at hprint
  obtain ⟨n1, n2, n3, n4, n5, n6, n7, n8, n9, n10, n11, n12, n13, n14, n15⟩ := hprint
  rw [keyDownHandler_found c e i x _ hi hx hsh]
  have hd := processKeyPress_default
    { c with current :=
      { element := some i, code := some e.code, event := some (.key e),
        char := some ((x.key.get c.state.lang).get c.state.case) } } (.key e) rfl
    (by simp only [List.mem_cons, List.mem_singleton, List.not_mem_nil, or_false, not_or,
          Option.some.injEq]
        exact ⟨n8, n9, n10, n11, n12, n13, n3, n1, n2⟩)
  have hn : (some e.code : Option Str)
      ∉ [some AltLeft, some AltRight, some ControlLeft, some ControlRight] := by
    simp only [List.mem_cons, List.mem_singleton, List.not_mem_nil, or_false, not_or,
      Option.some.injEq]
    exact ⟨n6, n7, n4, n5⟩
  have hte : ¬ ((some e.code : Option Str) = some Tab ∨ (some e.code : Option Str) = some Enter) := by
    simp only [Option.some.injEq, not_or]
    exact ⟨n14, n15⟩
  rw [if_pos hn, if_neg hte] at hd
  rw [hd, updateBuffer_some _ ((x.key.get c.state.lang).get c.state.case)
    (by rw [chord_current]) (by rw [chord_textarea]; exact hc)]
  have hn3 : (some e.code : Option Str) ∉ [some CapsLock, some ShiftLeft, some ShiftRight] := by
    simp only [List.mem_cons, List.mem_singleton, List.not_mem_nil, or_false, not_or,
      Option.some.injEq]
    exact ⟨n3, n1, n2⟩
  simp only [chord_current, chord_textarea]
  rw [if_pos hn3]
  refine ⟨_, addActiveState_some _ i ?_, ?_⟩
  · simp only [chord_current]
  · rfl

/-! ### Shift presses and releases -/

theorem toggleCase_flags (c : Controller) :
    (toggleCase c).state.isShiftLeftPressed = c.state.isShiftLeftPressed
    ∧ (toggleCase c).state.isShiftRightPressed = c.state.isShiftRightPressed
    ∧ (toggleCase c).state.isCapsLockPressed = c.state.isCapsLockPressed := by
  unfold toggleCase
  simp only []
  split <;> exact ⟨rfl, rfl, rfl⟩

theorem shiftLeft_mem : makeKey ShiftLeft (some ("Shift".toList, none)) none ∈ ROWS.flatten := by
  decide

theorem shiftRight_mem : makeKey ShiftRight (some ("Shift".toList, none)) none ∈ ROWS.flatten := by
  decide

/-- The Shift branch of `processKeyPress`. -/
theorem processKeyPress_shift (c0 : Controller) (ev : DomEvent) (i : Nat)
    (hev : c0.current.event = some ev) (hel : c0.current.element = some i)
    (hcode : c0.current.code = some ShiftLeft ∨ c0.current.code = some ShiftRight) :
    processKeyPress c0 = .ok
      (if (!((chord c0 ev).state.isShiftRightPressed || (chord c0 ev).state.isShiftLeftPressed)) = true
       then toggleCase
        (if c0.current.code = some ShiftLeft
         then { chord c0 ev with
            element := setActive (chord c0 ev).element i true
            state := { (chord c0 ev).state with isShiftLeftPressed := true } }
         else { chord c0 ev with
            element := setActive (chord c0 ev).element i true
            state := { (chord c0 ev).state with isShiftRightPressed := true } })
       else chord c0 ev) := by
  have h1 : c0.current.code ≠ some Backspace := by
    rcases hcode with h | h <;> rw [h] <;> decide
  have h2 : c0.current.code ≠ some Delete := by
    rcases hcode with h | h <;> rw [h] <;> decide
  have h3 : ¬ (c0.current.code = some ArrowLeft ∨ c0.current.code = some ArrowUp) := by
    rcases hcode with h | h <;> rw [h] <;> decide
  have h4 : ¬ (c0.current.code = some ArrowRight ∨ c0.current.code = some ArrowDown) := by
    rcases hcode with h | h <;> rw [h] <;> decide
  have h5 : c0.current.code ≠ some CapsLock := by
    rcases hcode with h | h <;> rw [h] <;> decide
  have ha : addActiveState (chord c0 ev)
      = .ok { chord c0 ev with element := setActive (chord c0 ev).element i true } :=
    addActiveState_some _ i (by rw [chord_current]; exact hel)
  unfold processKeyPress
  simp only [hev, chord_code, h1, h2, h3, h4, h5, hcode, if_true, if_false, ha]
  split
  · split <;> rfl
  · rfl

theorem processKeyPress_shift_flags (c0 : Controller) (ev : DomEvent) (i : Nat) (code : Str)
    (hev : c0.current.event = some ev) (hel : c0.current.element = some i)
    (hc : c0.current.code = some code) (hcode : code = ShiftLeft ∨ code = ShiftRight) :
    ∃ c2, processKeyPress c0 = .ok c2
      ∧ c2.current = c0.current
      ∧ c2.state.isCapsLockPressed = c0.state.isCapsLockPressed
      ∧ c2.state.isShiftLeftPressed
          = (c0.state.isShiftLeftPressed
              || (decide (code = ShiftLeft) && !c0.state.isShiftRightPressed))
      ∧ c2.state.isShiftRightPressed
          = (c0.state.isShiftRightPressed
              || (decide (code = ShiftRight) && !c0.state.isShiftLeftPressed)) := by
  have hcode2 : c0.current.code = some ShiftLeft ∨ c0.current.code = some ShiftRight := by
    rcases hcode with h | h
    · exact Or.inl (by rw [hc, h])
    · exact Or.inr (by rw [hc, h])
  refine ⟨_, processKeyPress_shift c0 ev i hev hel hcode2, ?_⟩
  obtain ⟨f1, f2, f3, -⟩ := chord_flags c0 ev
  have fc := chord_current c0 ev
  generalize chord c0 ev = c at f1 f2 f3 fc
  rw [f1, f2]
  cases hl : c0.state.isShiftLeftPressed <;> cases hr : c0.state.isShiftRightPressed
  · simp only [Bool.or_self, Bool.not_false, if_true]
    rcases hcode with h | h
    · have hn : code ≠ ShiftRight := by rw [h]; decide
      rw [if_pos (by rw [hc, h])]
      refine ⟨by rw [toggleCase_current]; exact fc, ?_, ?_, ?_⟩
      · rw [(toggleCase_flags _).2.2]; exact f3
      · rw [(toggleCase_flags _).1]; simp [h]
      · rw [(toggleCase_flags _).2.1]; simp [hn, f2, hr]
    · have hn : code ≠ ShiftLeft := by rw [h]; decide
      have hn2 : c0.current.code ≠ some ShiftLeft := by rw [hc, h]; decide
      rw [if_neg hn2]
      refine ⟨by rw [toggleCase_current]; exact fc, ?_, ?_, ?_⟩
      · rw [(toggleCase_flags _).2.2]; exact f3
      · rw [(toggleCase_flags _).1]; simp [hn, f1, hl]
      · rw [(toggleCase_flags _).2.1]; simp [h]
  · simp only [Bool.or_false, Bool.true_or, Bool.not_true, Bool.and_false, if_false, Bool.false_eq_true]
    exact ⟨fc, f3, by rw [f1, hl], by rw [f2, hr]⟩
  · simp only [Bool.or_true, Bool.true_or, Bool.not_true, Bool.and_false, if_false, Bool.false_eq_true,
      Bool.or_false]
    exact ⟨fc, f3, by rw [f1, hl], by rw [f2, hr]⟩
  · simp only [Bool.or_true, Bool.true_or, Bool.not_true, Bool.and_false, if_false, Bool.false_eq_true,
      Bool.or_false]
    exact ⟨fc, f3, by rw [f1, hl], by rw [f2, hr]⟩

theorem keyDownHandler_shift (c : Controller) (hp : PageOk c) (e : KeyboardEvent)
    (he : e.code = ShiftLeft ∨ e.code = ShiftRight) :
    ∃ c1, keyDownHandler c e = .ok c1
      ∧ c1.state.isCapsLockPressed = c.state.isCapsLockPressed
      ∧ c1.state.isShiftLeftPressed
          = (c.state.isShiftLeftPressed
              || (decide (e.code = ShiftLeft) && !c.state.isShiftRightPressed))
      ∧ c1.state.isShiftRightPressed
          = (c.state.isShiftRightPressed
              || (decide (e.code = ShiftRight) && !c.state.isShiftLeftPressed)) := by
  have hmem : ∃ k ∈ ROWS.flatten, k.className = e.code := by
    rcases he with h | h
    · exact ⟨_, shiftLeft_mem, h.symm⟩
    · exact ⟨_, shiftRight_mem, h.symm⟩
  obtain ⟨k, hk, hkc⟩ := hmem
  obtain ⟨i, x, hi, hx, -⟩ := pageOk_lookup c hp k hk
  rw [hkc] at hi
  have hsh := pageOk_shownText c hp i x hx
  have hin : ¬ (some e.code : Option Str) ∉ [some CapsLock, some ShiftLeft, some ShiftRight] := by
    rcases he with h | h <;> rw [h] <;> decide
  obtain ⟨c2, h2, hcur, g3, g1, g2⟩ := processKeyPress_shift_flags
    { c with current :=
      { element := some i, code := some e.code, event := some (.key e),
        char := some ((x.key.get c.state.lang).get c.state.case) } } (.key e) i e.code
    rfl rfl rfl he
  rw [keyDownHandler_found c e i x _ hi hx hsh, h2]
  simp only [hcur, if_neg hin]
  exact ⟨c2, rfl, g3, g1, g2⟩

theorem keyUpHandler_shift (c : Controller) (hp : PageOk c) (e : KeyboardEvent)
    (he : e.code = ShiftLeft ∨ e.code = ShiftRight) :
    (keyUpHandler c e).state.isCapsLockPressed = c.state.isCapsLockPressed
    ∧ (keyUpHandler c e).state.isShiftLeftPressed
        = (c.state.isShiftLeftPressed && !decide (e.code = ShiftLeft))
    ∧ (keyUpHandler c e).state.isShiftRightPressed
        = (c.state.isShiftRightPressed && !decide (e.code = ShiftRight)) := by
  have hmem : ∃ k ∈ ROWS.flatten, k.className = e.code := by
    rcases he with h | h
    · exact ⟨_, shiftLeft_mem, h.symm⟩
    · exact ⟨_, shiftRight_mem, h.symm⟩
  obtain ⟨k, hk, hkc⟩ := hmem
  obtain ⟨i, x, hi, -, -⟩ := pageOk_lookup c hp k hk
  rw [hkc] at hi
  have hnc : e.code ≠ CapsLock := by
    rcases he with h | h <;> rw [h] <;> decide
  unfold keyUpHandler
  simp only [hi, if_pos hnc, if_pos he]
  rcases he with h | h
  · have hn : e.code ≠ ShiftRight := by rw [h]; decide
    rw [if_pos h]
    refine ⟨?_, ?_, ?_⟩
    · rw [(toggleCase_flags _).2.2, removeActiveState_state]
      simp only [removeActiveState_state]
    · rw [(toggleCase_flags _).1, removeActiveState_state]
      simp [h]
    · rw [(toggleCase_flags _).2.1, removeActiveState_state]
      simp [removeActiveState_state, hn]
  · have hn : e.code ≠ ShiftLeft := by rw [h]; decide
    rw [if_neg hn]
    refine ⟨?_, ?_, ?_⟩
    · rw [(toggleCase_flags _).2.2, removeActiveState_state]
      simp only [removeActiveState_state]
    · rw [(toggleCase_flags _).1, removeActiveState_state]
      simp [removeActiveState_state, hn]
    · rw [(toggleCase_flags _).2.1, removeActiveState_state]
      simp [h]

theorem step_reachable_pageOk (stored : Option Str) (as : List Action) (a : Action) :
    PageOk (step (run stored as) a) := by
  rw [← run_snoc]
  exact run_pageOk stored _

theorem step_reachable_caseOk (stored : Option Str) (as : List Action) (a : Action) :
    (step (run stored as) a).state.case
      = specCase (step (run stored as) a).state.isCapsLockPressed
          ((step (run stored as) a).state.isShiftLeftPressed
            || (step (run stored as) a).state.isShiftRightPressed) := by
  rw [← run_snoc]
  exact run_caseOk stored _

theorem step_keyDown_shift (c : Controller) (hp : PageOk c) (e : KeyboardEvent)
    (he : e.code = ShiftLeft ∨ e.code = ShiftRight) :
    (step c (.keyDown e)).state.isCapsLockPressed = c.state.isCapsLockPressed
    ∧ (step c (.keyDown e)).state.isShiftLeftPressed
        = (c.state.isShiftLeftPressed
            || (decide (e.code = ShiftLeft) && !c.state.isShiftRightPressed))
    ∧ (step c (.keyDown e)).state.isShiftRightPressed
        = (c.state.isShiftRightPressed
            || (decide (e.code = ShiftRight) && !c.state.isShiftLeftPressed)) := by
  obtain ⟨c1, h1, g⟩ := keyDownHandler_shift c hp e he
  simp only [step, h1, Result.after]
  exact g

theorem run_keyDown_shift (stored : Option Str) (as : List Action) (e : KeyboardEvent)
    (he : e.code = ShiftLeft ∨ e.code = ShiftRight) :
    (run stored (as ++ [.keyDown e])).state.isCapsLockPressed
        = (run stored as).state.isCapsLockPressed
    ∧ (run stored (as ++ [.keyDown e])).state.isShiftLeftPressed
        = ((run stored as).state.isShiftLeftPressed
            || (decide (e.code = ShiftLeft) && !(run stored as).state.isShiftRightPressed))
    ∧ (run stored (as ++ [.keyDown e])).state.isShiftRightPressed
        = ((run stored as).state.isShiftRightPressed
            || (decide (e.code = ShiftRight) && !(run stored as).state.isShiftLeftPressed)) := by
  rw [run_snoc]
  exact step_keyDown_shift _ (run_pageOk stored as) e he

theorem run_keyUp_shift (stored : Option Str) (as : List Action) (e : KeyboardEvent)
    (he : e.code = ShiftLeft ∨ e.code = ShiftRight) :
    (run stored (as ++ [.keyUp e])).state.isCapsLockPressed
        = (run stored as).state.isCapsLockPressed
    ∧ (run stored (as ++ [.keyUp e])).state.isShiftLeftPressed
        = ((run stored as).state.isShiftLeftPressed && !decide (e.code = ShiftLeft))
    ∧ (run stored (as ++ [.keyUp e])).state.isShiftRightPressed
        = ((run stored as).state.isShiftRightPressed && !decide (e.code = ShiftRight)) := by
  rw [run_snoc]
  exact keyUpHandler_shift _ (run_pageOk stored as) e he

theorem run_case (stored : Option Str) (as : List Action) :
    (run stored as).state.case
      = specCase (run stored as).state.isCapsLockPressed
          ((run stored as).state.isShiftLeftPressed || (run stored as).state.isShiftRightPressed) :=
  run_caseOk stored as

/-! ### Properties kept by the handlers, with the flag updates tracked -/

theorem kept_addActiveState (P : Controller → Prop) (hP : Kept P) (c : Controller)
    (h : P c) : P (addActiveState c).after := by
  unfold addActiveState
  split
  · exact h
  · exact hP.active _ _ _ h

theorem kept_removeActiveState (P : Controller → Prop) (hP : Kept P) (c : Controller)
    (h : P c) : P (removeActiveState c) := by
  unfold removeActiveState
  split
  · exact h
  · split
    · exact hP.active c _ _ h
    · split
      · exact hP.active { c with element := setActive c.element _ false } _ _ (hP.active c _ _ h)
      · exact hP.active c _ _ h

theorem kept_updateBuffer (P : Controller → Prop) (hP : Kept P) (c : Controller)
    (h : P c) : P (updateBuffer c).after := by
  unfold updateBuffer
  simp only []
  split
  · split
    · exact hP.text _ _ h
    · exact hP.text _ _ h
  · exact hP.text _ _ h

/-- The part of `processKeyPress` after the locale chord. -/
theorem kept_dispatch (P : Controller → Prop) (hP : Kept P) (c0 : Controller) (ev : DomEvent)
    (hev : c0.current.event = some ev) (hc : P (chord c0 ev)) :
    P (processKeyPress c0).after := by
  unfold processKeyPress
  simp only [hev]
  generalize chord c0 ev = c at hc ⊢
  by_cases h1 : c.current.code = some Backspace
  · rw [if_pos h1]
    by_cases hs : c.textarea.selectionStart ≠ 0
    · rw [if_pos hs]
      exact hP.text _ _ hc
    · rw [if_neg hs]
      exact hc
  rw [if_neg h1]
  by_cases h2 : c.current.code = some Delete
  · rw [if_pos h2]
    by_cases hs : c.textarea.selectionStart ≠ c.textarea.value.length
    · rw [if_pos hs]
      exact hP.text _ _ hc
    · rw [if_neg hs]
      exact hc
  rw [if_neg h2]
  by_cases h3 : c.current.code = some ArrowLeft ∨ c.current.code = some ArrowUp
  · rw [if_pos h3]
    by_cases hs : c.textarea.selectionStart ≠ 0
    · rw [if_pos hs]
      exact hP.text _ _ hc
    · rw [if_neg hs]
      exact hc
  rw [if_neg h3]
  by_cases h4 : c.current.code = some ArrowRight ∨ c.current.code = some ArrowDown
  · rw [if_pos h4]
    by_cases hs : c.textarea.selectionStart ≠ c.textarea.value.length
    · rw [if_pos hs]
      exact hP.text _ _ hc
    · rw [if_neg hs]
      exact hc
  rw [if_neg h4]
  by_cases h5 : c.current.code = some CapsLock
  · rw [if_pos h5]
    by_cases hcaps : (c.state.isCapsLockPressed && !ev.isRepeat) = true
    · rw [if_pos hcaps]
      exact hP.caps _ false (kept_removeActiveState P hP c hc)
    · rw [if_neg hcaps]
      cases ha : addActiveState c with
      | error c1 =>
        rw [addActiveState_error c c1 ha]
        exact hc
      | ok c1 =>
        obtain ⟨i, -, rfl⟩ := addActiveState_ok c c1 ha
        exact hP.caps _ true (hP.active c i true hc)
  rw [if_neg h5]
  by_cases h6 : c.current.code = some ShiftLeft ∨ c.current.code = some ShiftRight
  · rw [if_pos h6]
    by_cases hsh : (!(c.state.isShiftRightPressed || c.state.isShiftLeftPressed)) = true
    · rw [if_pos hsh]
      have hl : c.state.isShiftLeftPressed = false := by
        cases h : c.state.isShiftLeftPressed
        · rfl
        · rw [h] at hsh; simp at hsh
      have hr : c.state.isShiftRightPressed = false := by
        cases h : c.state.isShiftRightPressed
        · rfl
        · rw [h] at hsh; simp at hsh
      cases ha : addActiveState c with
      | error c1 =>
        rw [addActiveState_error c c1 ha]
        exact hc
      | ok c1 =>
        obtain ⟨i, -, rfl⟩ := addActiveState_ok c c1 ha
        simp only []
        split
        · exact hP.shiftLeftDown _ (hP.active c i true hc) hl hr
        · exact hP.shiftRightDown _ (hP.active c i true hc) hl hr
    · rw [if_neg hsh]
      exact hc
  rw [if_neg h6]
  have hc1 : P (if c.current.code = some Tab ∨ c.current.code = some Enter
      then { c with current := { c.current with
        char := some (if c.current.code = some Tab then unit 9 else unit 10) } }
      else c) := by
    split
    · exact hP.current _ _ hc
    · exact hc
  generalize (if c.current.code = some Tab ∨ c.current.code = some Enter
      then { c with current := { c.current with
        char := some (if c.current.code = some Tab then unit 9 else unit 10) } }
      else c) = c1 at hc1 ⊢
  split
  · exact kept_updateBuffer P hP c1 hc1
  · exact hc1

theorem kept_processKeyPress (P : Controller → Prop) (hP : Kept P)
    (hlang : ∀ c, P c → P (toggleLang c)) (c0 : Controller) (h0 : P c0) :
    P (processKeyPress c0).after := by
  cases hev : c0.current.event with
  | none =>
    unfold processKeyPress
    simp only [hev]
    exact h0
  | some ev =>
    apply kept_dispatch P hP c0 ev hev
    unfold chord
    split
    · exact hlang _ h0
    · exact h0

theorem kept_keyDownHandler (P : Controller → Prop) (hP : Kept P)
    (hlang : ∀ c, P c → P (toggleLang c)) (c : Controller)
    (e : KeyboardEvent) (h : P c) : P (keyDownHandler c e).after := by
  unfold keyDownHandler
  simp only []
  have h1 := hP.current c { c.current with
    event := some (.key e), code := some e.code,
    element := getElementsByClassName c.element e.code } h
  split
  · exact h1
  · split
    · exact h1
    · rename_i ch _
      have h2 := kept_processKeyPress P hP hlang _ (hP.current _
        { element := getElementsByClassName c.element e.code, code := some e.code,
          event := some (.key e), char := some ch } h1)
      split
      · rename_i c2 hc2
        rw [hc2] at h2
        exact h2
      · rename_i c2 hc2
        rw [hc2] at h2
        split
        · exact kept_addActiveState P hP c2 h2
        · exact h2

theorem kept_keyUpHandler (P : Controller → Prop) (hP : Kept P) (c : Controller)
    (e : KeyboardEvent) (h : P c) : P (keyUpHandler c e) := by
  unfold keyUpHandler
  split
  · exact h
  · rename_i i _
    simp only []
    have h1 : P (if e.code ≠ CapsLock
        then removeActiveState { c with current := { c.current with element := some i } }
        else { c with current := { c.current with element := some i } }) := by
      split
      · exact kept_removeActiveState P hP _ (hP.current _ _ h)
      · exact hP.current _ _ h
    generalize (if e.code ≠ CapsLock
        then removeActiveState { c with current := { c.current with element := some i } }
        else { c with current := { c.current with element := some i } }) = c2 at h1 ⊢
    split
    · split
      · rw [removeActiveState_withState]
        have := hP.shiftLeftUp _ (kept_removeActiveState P hP c2 h1)
        simp only [removeActiveState_state] at this
        exact this
      · rw [removeActiveState_withState]
        have := hP.shiftRightUp _ (kept_removeActiveState P hP c2 h1)
        simp only [removeActiveState_state] at this
        exact this
    · exact h1

theorem kept_mouseDownHandler (P : Controller → Prop) (hP : Kept P)
    (hlang : ∀ c, P c → P (toggleLang c)) (c : Controller)
    (e : MouseEvent) (h : P c) : P (mouseDownHandler c e).after := by
  unfold mouseDownHandler
  split
  · exact h
  · rename_i i text _
    simp only []
    have h2 := kept_processKeyPress P hP hlang _ (hP.current c
      { event := some (.mouse e), element := some i,
        code := (c.element[i]?).map (fun x => x.key.className), char := some text } h)
    split
    · rename_i c2 hc2
      rw [hc2] at h2
      exact h2
    · rename_i c2 hc2
      rw [hc2] at h2
      have h3 : P (if c2.current.code ≠ some CapsLock then addActiveState c2 else .ok c2).after := by
        split
        · exact kept_addActiveState P hP c2 h2
        · exact h2
      split
      · rename_i c3 hc3
        rw [hc3] at h3
        exact h3
      · rename_i c3 hc3
        rw [hc3] at h3
        exact hP.previous _ _ h3

theorem kept_mouseUpRelease (P : Controller → Prop) (hP : Kept P) (c : Controller)
    (h : P c) : P (mouseUpRelease c) := by
  unfold mouseUpRelease
  split
  · simp only []
    have h1 := kept_removeActiveState P hP c h
    generalize removeActiveState c = c1 at h1 ⊢
    have h2 : P (if c1.state.isShiftLeftPressed = true ∧ c1.current.code = some ShiftLeft
        then toggleCase { c1 with state := { c1.state with isShiftLeftPressed := false } }
        else c1) := by
      split
      · exact hP.shiftLeftUp _ h1
      · exact h1
    generalize (if c1.state.isShiftLeftPressed = true ∧ c1.current.code = some ShiftLeft
        then toggleCase { c1 with state := { c1.state with isShiftLeftPressed := false } }
        else c1) = c2 at h2 ⊢
    split
    · exact hP.shiftRightUp _ h2
    · exact h2
  · exact h

theorem kept_mouseUpHandler (P : Controller → Prop) (hP : Kept P) (c : Controller)
    (e : MouseEvent) (h : P c) : P (mouseUpHandler c e) := by
  unfold mouseUpHandler
  split
  · exact h
  · exact hP.current _ _ h
  · exact kept_mouseUpRelease P hP _ (hP.current _ _ h)
  · exact kept_mouseUpRelease P hP _ (hP.current _ _ h)

theorem kept_step (P : Controller → Prop) (hP : Kept P)
    (hlang : ∀ c, P c → P (toggleLang c)) (c : Controller) (a : Action)
    (h : P c) : P (step c a) := by
  cases a with
  | keyDown e => exact kept_keyDownHandler P hP hlang c e h
  | keyUp e => exact kept_keyUpHandler P hP c e h
  | mouseDown e => exact kept_mouseDownHandler P hP hlang c e h
  | mouseUp e => exact kept_mouseUpHandler P hP c e h
  | toggleLang => exact hlang c h

theorem kept_foldl (P : Controller → Prop) (hP : Kept P)
    (hlang : ∀ c, P c → P (toggleLang c)) (as : List Action) :
    ∀ c, P c → P (as.foldl step c) := by
  induction as with
  | nil => intro c h; exact h
  | cons a as ih => intro c h; exact ih _ (kept_step P hP hlang c a h)

theorem kept_run (P : Controller → Prop) (hP : Kept P)
    (hlang : ∀ c, P c → P (toggleLang c))
    (hinit : ∀ stored, P (initPage (newController stored)))
    (stored : Option Str) (as : List Action) : P (run stored as) :=
  kept_foldl P hP hlang as _ (hinit stored)

/-! ### Locale toggle -/

theorem toggleHidden_toggleHidden (x : Cell) (lang : Lang) (k : Case) :
    (x.toggleHidden lang k).toggleHidden lang k = x := by
  cases x with
  | mk key active ru en =>
    cases ru
    cases en
    cases lang <;> cases k <;>
      simp [Cell.toggleHidden, Cell.langSpan, Cell.setLangSpan, LangSpan.isHidden,
        LangSpan.setHidden]

theorem toggleLang_storedLang (c : Controller) :
    (toggleLang c).storedLang = some (otherLang c.state.lang).str := by
  simp [toggleLang, updateLangItems, flip_eq_otherLang]

theorem toggleLang_element (c : Controller) :
    (toggleLang c).element = c.element.map (fun x =>
      (x.toggleHidden c.state.lang c.state.case).toggleHidden
        (otherLang c.state.lang) c.state.case) := by
  simp [toggleLang, updateLangItems, flip_eq_otherLang, Function.comp_def]

theorem toggleLang_toggleLang (c : Controller) :
    toggleLang (toggleLang c) = { c with storedLang := some c.state.lang.str } := by
  have hst : (toggleLang (toggleLang c)).state = c.state := by
    rw [toggleLang_state, toggleLang_state]
    simp [otherLang_otherLang]
  have hel : (toggleLang (toggleLang c)).element = c.element := by
    rw [toggleLang_element, toggleLang_element, toggleLang_state]
    simp only [List.map_map, otherLang_otherLang]
    conv_rhs => rw [← List.map_id c.element]
    apply List.map_congr_left
    intro x _
    simp only [Function.comp_apply, toggleHidden_toggleHidden, id]
  have hsl : (toggleLang (toggleLang c)).storedLang = some c.state.lang.str := by
    rw [toggleLang_storedLang, toggleLang_state]
    simp [otherLang_otherLang]
  have hta : (toggleLang (toggleLang c)).textarea = c.textarea := rfl
  have hcu : (toggleLang (toggleLang c)).current = c.current := rfl
  have hpr : (toggleLang (toggleLang c)).previous = c.previous := rfl
  generalize toggleLang (toggleLang c) = c2 at hst hel hsl hta hcu hpr
  cases c2
  cases c
  simp only [Controller.mk.injEq] at *
  exact ⟨hel, hta, hst, hcu, hpr, hsl⟩

theorem toggleCase_lang (c : Controller) : (toggleCase c).state.lang = c.state.lang := by
  unfold toggleCase
  simp only []
  split <;> rfl

theorem toggleCase_case_of_isEmpty (c : Controller) (h : c.element.isEmpty = false) :
    (toggleCase c).state.case
      = specCase c.state.isCapsLockPressed
          (c.state.isShiftLeftPressed || c.state.isShiftRightPressed) := by
  rw [toggleCase_state c h]

theorem lang_str_eq_ru (lang : Lang) : some lang.str = some RU.str ↔ lang = RU := by
  cases lang <;> decide

theorem closed_langSync : Closed LangSync where
  lang := fun c _ => by
    unfold LangSync
    rw [toggleLang_storedLang, toggleLang_state]
    exact lang_str_eq_ru _
  flags := fun c st h _ h2 => by
    unfold LangSync at *
    rw [toggleCase_lang, toggleCase_storedLang]
    simpa [h2] using h
  active := fun _ _ _ h => h
  text := fun _ _ h _ => h
  current := fun _ _ h => h
  previous := fun _ _ h => h

theorem langSync_initPage (stored : Option Str) : LangSync (initPage (newController stored)) := by
  unfold initPage
  simp only []
  split
  · unfold LangSync
    rw [toggleLang_storedLang, toggleLang_state]
    exact lang_str_eq_ru _
  · rename_i h
    unfold LangSync
    constructor
    · intro h2
      exact absurd h2 h
    · intro h2
      cases h2

theorem run_langSync (stored : Option Str) (as : List Action) : LangSync (run stored as) :=
  closed_run _ closed_langSync langSync_initPage stored as

theorem kept_langStored (lang : Lang) (s : Option Str) :
    Kept (fun c => c.state.lang = lang ∧ c.storedLang = s) where
  caps := fun c _ h => by
    rw [toggleCase_lang, toggleCase_storedLang]
    exact h
  shiftLeftDown := fun c h _ _ => by
    rw [toggleCase_lang, toggleCase_storedLang]
    exact h
  shiftRightDown := fun c h _ _ => by
    rw [toggleCase_lang, toggleCase_storedLang]
    exact h
  shiftLeftUp := fun c h => by
    rw [toggleCase_lang, toggleCase_storedLang]
    exact h
  shiftRightUp := fun c h => by
    rw [toggleCase_lang, toggleCase_storedLang]
    exact h
  active := fun _ _ _ h => h
  text := fun _ _ h => h
  current := fun _ _ h => h
  previous := fun _ _ h => h

theorem chord_of_both (c : Controller) (ev : DomEvent)
    (hctrl : ev.ctrlKey = true) (halt : ev.altKey = true) : chord c ev = toggleLang c := by
  simp [chord, hctrl, halt]

theorem chord_of_not_both (c : Controller) (ev : DomEvent)
    (h : (ev.ctrlKey && ev.altKey) = false) : chord c ev = c := by
  simp [chord, h]

theorem keyDownHandler_chord (c : Controller) (hp : PageOk c) (k : Key) (hk : k ∈ ROWS.flatten)
    (e : KeyboardEvent) (he : e.code = k.className)
    (hctrl : e.ctrlKey = true) (halt : e.altKey = true) :
    (keyDownHandler c e).after.state.lang = otherLang c.state.lang
    ∧ (keyDownHandler c e).after.storedLang = some (otherLang c.state.lang).str := by
  obtain ⟨i, x, hi, hx, -⟩ := pageOk_lookup c hp k hk
  rw [← he] at hi
  have hsh := pageOk_shownText c hp i x hx
  rw [keyDownHandler_found c e i x _ hi hx hsh]
  have h2 := kept_dispatch _ (kept_langStored (otherLang c.state.lang)
      (some (otherLang c.state.lang).str))
    { c with current :=
      { element := some i, code := some e.code, event := some (.key e),
        char := some ((x.key.get c.state.lang).get c.state.case) } } (.key e) rfl
    (by rw [chord_of_both _ (.key e) hctrl halt, toggleLang_state, toggleLang_storedLang]
        exact ⟨rfl, rfl⟩)
  cases hpk : processKeyPress
    { c with current :=
      { element := some i, code := some e.code, event := some (.key e),
        char := some ((x.key.get c.state.lang).get c.state.case) } } with
  | error c2 =>
    rw [hpk] at h2
    exact h2
  | ok c2 =>
    rw [hpk] at h2
    simp only []
    split
    · exact kept_addActiveState _ (kept_langStored _ _) c2 h2
    · exact h2

/-! ### CapsLock presses -/

theorem capsLock_mem : makeKey CapsLock none none ∈ ROWS.flatten := by
  decide

theorem setActive_isEmpty (l : List Cell) (i : Nat) (b : Bool) :
    (setActive l i b).isEmpty = l.isEmpty := by
  cases l with
  | nil => rfl
  | cons y ys => cases i <;> rfl

theorem removeActiveState_isEmpty (c : Controller) :
    (removeActiveState c).element.isEmpty = c.element.isEmpty := by
  unfold removeActiveState
  split
  · rfl
  · split
    · exact setActive_isEmpty _ _ _
    · split
      · simp only [setActive_isEmpty]
      · exact setActive_isEmpty _ _ _

theorem chord_isEmpty (c : Controller) (ev : DomEvent) :
    (chord c ev).element.isEmpty = c.element.isEmpty := by
  unfold chord
  split
  · rw [toggleLang_element]
    cases c.element <;> rfl
  · rfl

/-- The CapsLock branch of `processKeyPress`. -/
theorem processKeyPress_capsLock (c0 : Controller) (ev : DomEvent) (i : Nat)
    (hev : c0.current.event = some ev) (hel : c0.current.element = some i)
    (hcode : c0.current.code = some CapsLock) :
    processKeyPress c0 = .ok
      (if ((chord c0 ev).state.isCapsLockPressed && !ev.isRepeat) = true
       then toggleCase
        { removeActiveState (chord c0 ev) with
          state := { (removeActiveState (chord c0 ev)).state with isCapsLockPressed := false } }
       else toggleCase
        { chord c0 ev with
          element := setActive (chord c0 ev).element i true
          state := { (chord c0 ev).state with isCapsLockPressed := true } }) := by
  have h1 : (some CapsLock : Option Str) ≠ some Backspace := by decide
  have h2 : (some CapsLock : Option Str) ≠ some Delete := by decide
  have h3 : ¬ ((some CapsLock : Option Str) = some ArrowLeft
      ∨ (some CapsLock : Option Str) = some ArrowUp) := by decide
  have h4 : ¬ ((some CapsLock : Option Str) = some ArrowRight
      ∨ (some CapsLock : Option Str) = some ArrowDown) := by decide
  have ha : addActiveState (chord c0 ev)
      = .ok { chord c0 ev with element := setActive (chord c0 ev).element i true } :=
    addActiveState_some _ i (by rw [chord_current]; exact hel)
  unfold processKeyPress
  simp only [hev, chord_code, h1, h2, h3, h4, hcode, if_true, if_false, ha]
  split <;> rfl

theorem processKeyPress_capsLock_flags (c0 : Controller) (ev : DomEvent) (i : Nat)
    (hev : c0.current.event = some ev) (hel : c0.current.element = some i)
    (hcode : c0.current.code = some CapsLock) :
    ∃ c2, processKeyPress c0 = .ok c2
      ∧ c2.current = c0.current
      ∧ c2.state.isCapsLockPressed = !(c0.state.isCapsLockPressed && !ev.isRepeat)
      ∧ c2.state.isShiftLeftPressed = c0.state.isShiftLeftPressed
      ∧ c2.state.isShiftRightPressed = c0.state.isShiftRightPressed
      ∧ (c0.element.isEmpty = false →
          c2.state.case = specCase (!(c0.state.isCapsLockPressed && !ev.isRepeat))
            (c0.state.isShiftLeftPressed || c0.state.isShiftRightPressed)) := by
  refine ⟨_, processKeyPress_capsLock c0 ev i hev hel hcode, ?_⟩
  obtain ⟨f1, f2, f3, -⟩ := chord_flags c0 ev
  have fc := chord_current c0 ev
  have fe := chord_isEmpty c0 ev
  generalize chord c0 ev = c at f1 f2 f3 fc fe
  rw [f3]
  by_cases hb : (c0.state.isCapsLockPressed && !ev.isRepeat) = true
  · rw [if_pos hb, hb]
    refine ⟨by rw [toggleCase_current, removeActiveState_current]; exact fc, ?_, ?_, ?_, ?_⟩
    · rw [(toggleCase_flags _).2.2]; rfl
    · rw [(toggleCase_flags _).1]
      simp only [removeActiveState_state]
      exact f1
    · rw [(toggleCase_flags _).2.1]
      simp only [removeActiveState_state]
      exact f2
    · intro hne
      have hne2 : (removeActiveState c).element.isEmpty = false := by
        rw [removeActiveState_isEmpty, fe]
        exact hne
      refine (toggleCase_case_of_isEmpty
        { removeActiveState c with
          state := { (removeActiveState c).state with isCapsLockPressed := false } } hne2).trans ?_
      simp only [removeActiveState_state, f1, f2]
      rfl
  · rw [if_neg hb]
    have hb2 : (c0.state.isCapsLockPressed && !ev.isRepeat) = false := by
      cases h : (c0.state.isCapsLockPressed && !ev.isRepeat)
      · rfl
      · exact absurd h hb
    rw [hb2]
    refine ⟨by rw [toggleCase_current]; exact fc, ?_, ?_, ?_, ?_⟩
    · rw [(toggleCase_flags _).2.2]; rfl
    · rw [(toggleCase_flags _).1]; exact f1
    · rw [(toggleCase_flags _).2.1]; exact f2
    · intro hne
      have hne2 : (setActive c.element i true).isEmpty = false := by
        rw [setActive_isEmpty, fe]
        exact hne
      refine (toggleCase_case_of_isEmpty
        { c with
          element := setActive c.element i true
          state := { c.state with isCapsLockPressed := true } } hne2).trans ?_
      simp only [f1, f2]
      rfl

theorem keyDownHandler_capsLock (c : Controller) (hp : PageOk c) (e : KeyboardEvent)
    (he : e.code = CapsLock) :
    ∃ c1, keyDownHandler c e = .ok c1
      ∧ c1.state.isCapsLockPressed = !(c.state.isCapsLockPressed && !e.isRepeat)
      ∧ c1.state.isShiftLeftPressed = c.state.isShiftLeftPressed
      ∧ c1.state.isShiftRightPressed = c.state.isShiftRightPressed
      ∧ c1.state.case = specCase (!(c.state.isCapsLockPressed && !e.isRepeat))
          (c.state.isShiftLeftPressed || c.state.isShiftRightPressed) := by
  obtain ⟨i, x, hi, hx, -⟩ := pageOk_lookup c hp _ capsLock_mem
  have hk : (makeKey CapsLock none none).className = e.code := he.symm
  rw [hk] at hi
  have hsh := pageOk_shownText c hp i x hx
  have hin : ¬ (some e.code : Option Str) ∉ [some CapsLock, some ShiftLeft, some ShiftRight] := by
    rw [he]; decide
  obtain ⟨c2, h2, hcur, g3, g1, g2, g4⟩ := processKeyPress_capsLock_flags
    { c with current :=
      { element := some i, code := some e.code, event := some (.key e),
        char := some ((x.key.get c.state.lang).get c.state.case) } } (.key e) i
    rfl rfl (by rw [he])
  rw [keyDownHandler_found c e i x _ hi hx hsh, h2]
  simp only [hcur, if_neg hin]
  exact ⟨c2, rfl, g3, g1, g2, g4 (pageOk_isEmpty c hp)⟩

/-- The state `mouseDownHandler` hands to `processKeyPress`. -/
theorem mouseDownHandler_found (c : Controller) (e : MouseEvent) (i : Nat) (text : Str) (x : Cell)
    (hspan : e.target.span c.element = some (i, text)) (hx : c.element[i]? = some x) :
    mouseDownHandler c e =
      match processKeyPress { c with current :=
          { event := some (.mouse e), element := some i,
            code := some x.key.className, char := some text } } with
      | .error c2 => .error c2
      | .ok c2 =>
        match (if c2.current.code ≠ some CapsLock then addActiveState c2 else .ok c2) with
        | .error c3 => .error c3
        | .ok c3 => .ok { c3 with previous := c3.current } := by
  unfold mouseDownHandler
  simp only [hspan, hx, Option.map_some']

theorem mouseDownHandler_capsLock (c : Controller) (hp : PageOk c) (e : MouseEvent)
    (i : Nat) (text : Str) (x : Cell)
    (hspan : e.target.span c.element = some (i, text)) (hx : c.element[i]? = some x)
    (hcode : x.key.className = CapsLock) :
    ∃ c1, mouseDownHandler c e = .ok c1
      ∧ c1.state.isCapsLockPressed = !c.state.isCapsLockPressed
      ∧ c1.state.isShiftLeftPressed = c.state.isShiftLeftPressed
      ∧ c1.state.isShiftRightPressed = c.state.isShiftRightPressed
      ∧ c1.state.case = specCase (!c.state.isCapsLockPressed)
          (c.state.isShiftLeftPressed || c.state.isShiftRightPressed) := by
  obtain ⟨c2, h2, hcur, g3, g1, g2, g4⟩ := processKeyPress_capsLock_flags
    { c with current :=
      { event := some (.mouse e), element := some i,
        code := some x.key.className, char := some text } } (.mouse e) i
    rfl rfl (by rw [hcode])
  have hnn : ¬ (some x.key.className : Option Str) ≠ some CapsLock := by
    rw [hcode]; decide
  rw [mouseDownHandler_found c e i text x hspan hx, h2]
  simp only [hcur, if_neg hnn]
  simp only [DomEvent.isRepeat, Bool.not_false, Bool.and_true] at g3 g4
  exact ⟨_, rfl, g3, g1, g2, g4 (pageOk_isEmpty c hp)⟩

/-! ### Modifier and chord keys leave the text field alone -/

theorem addActiveState_after_textarea (c : Controller) :
    (addActiveState c).after.textarea = c.textarea := by
  unfold addActiveState
  split <;> rfl

theorem processKeyPress_capsLock_textarea (c : Controller)
    (hc : c.current.code = some CapsLock) :
    (processKeyPress c).after.textarea = c.textarea := by
  have h1 : (some CapsLock : Option Str) ≠ some Backspace := by decide
  have h2 : (some CapsLock : Option Str) ≠ some Delete := by decide
  have h3 : ¬ ((some CapsLock : Option Str) = some ArrowLeft
      ∨ (some CapsLock : Option Str) = some ArrowUp) := by decide
  have h4 : ¬ ((some CapsLock : Option Str) = some ArrowRight
      ∨ (some CapsLock : Option Str) = some ArrowDown) := by decide
  unfold processKeyPress
  cases hev : c.current.event with
  | none => rfl
  | some ev =>
    simp only [chord_code, hc, h1, h2, h3, h4, if_true, if_false]
    split
    · simp only [Result.after, toggleCase_textarea, removeActiveState_textarea, chord_textarea]
    · cases ha : addActiveState (chord c ev) with
      | error c1 =>
        rw [addActiveState_error _ c1 ha]
        exact chord_textarea c ev
      | ok c1 =>
        obtain ⟨i, -, rfl⟩ := addActiveState_ok _ c1 ha
        simp only [Result.after, toggleCase_textarea, chord_textarea]

theorem processKeyPress_shift_textarea (c : Controller)
    (hc : c.current.code = some ShiftLeft ∨ c.current.code = some ShiftRight) :
    (processKeyPress c).after.textarea = c.textarea := by
  have h1 : c.current.code ≠ some Backspace := by
    rcases hc with h | h <;> rw [h] <;> decide
  have h2 : c.current.code ≠ some Delete := by
    rcases hc with h | h <;> rw [h] <;> decide
  have h3 : ¬ (c.current.code = some ArrowLeft ∨ c.current.code = some ArrowUp) := by
    rcases hc with h | h <;> rw [h] <;> decide
  have h4 : ¬ (c.current.code = some ArrowRight ∨ c.current.code = some ArrowDown) := by
    rcases hc with h | h <;> rw [h] <;> decide
  have h5 : c.current.code ≠ some CapsLock := by
    rcases hc with h | h <;> rw [h] <;> decide
  unfold processKeyPress
  cases hev : c.current.event with
  | none => rfl
  | some ev =>
    simp only [chord_code, h1, h2, h3, h4, h5, hc, if_true, if_false]
    split
    · cases ha : addActiveState (chord c ev) with
      | error c1 =>
        rw [addActiveState_error _ c1 ha]
        exact chord_textarea c ev
      | ok c1 =>
        obtain ⟨i, -, rfl⟩ := addActiveState_ok _ c1 ha
        simp only [Result.after, toggleCase_textarea]
        split <;> exact chord_textarea c ev
    · exact chord_textarea c ev

theorem processKeyPress_chordKey_textarea (c : Controller)
    (hc : c.current.code ∈ [some AltLeft, some AltRight, some ControlLeft, some ControlRight]) :
    (processKeyPress c).after.textarea = c.textarea := by
  cases hev : c.current.event with
  | none =>
    unfold processKeyPress
    simp only [hev]
    rfl
  | some ev =>
    have hn : c.current.code ∉ [some Backspace, some Delete, some ArrowLeft, some ArrowUp,
        some ArrowRight, some ArrowDown, some CapsLock, some ShiftLeft, some ShiftRight] := by
      simp only [List.mem_cons, List.mem_singleton, List.not_mem_nil, or_false] at hc
      rcases hc with h | h | h | h <;> rw [h] <;> decide
    have hte : ¬ (c.current.code = some Tab ∨ c.current.code = some Enter) := by
      simp only [List.mem_cons, List.mem_singleton, List.not_mem_nil, or_false] at hc
      rcases hc with h | h | h | h <;> rw [h] <;> decide
    rw [processKeyPress_default c ev hev hn, if_neg (not_not.mpr hc), if_neg hte]
    exact chord_textarea c ev

theorem processKeyPress_modifier_textarea (c : Controller) (code : Str)
    (hc : c.current.code = some code)
    (hm : code ∈ [ShiftLeft, ShiftRight, CapsLock, ControlLeft, ControlRight, AltLeft, AltRight]) :
    (processKeyPress c).after.textarea = c.textarea := by
  simp only [List.mem_cons, List.mem_singleton, List.not_mem_nil, or_false] at hm
  rcases hm with h | h | h | h | h | h | h
  · exact processKeyPress_shift_textarea c (Or.inl (by rw [hc, h]))
  · exact processKeyPress_shift_textarea c (Or.inr (by rw [hc, h]))
  · exact processKeyPress_capsLock_textarea c (by rw [hc, h])
  · exact processKeyPress_chordKey_textarea c (by rw [hc, h]; decide)
  · exact processKeyPress_chordKey_textarea c (by rw [hc, h]; decide)
  · exact processKeyPress_chordKey_textarea c (by rw [hc, h]; decide)
  · exact processKeyPress_chordKey_textarea c (by rw [hc, h]; decide)

theorem keyDownHandler_modifier_textarea (c : Controller) (e : KeyboardEvent)
    (hm : e.code ∈ [ShiftLeft, ShiftRight, CapsLock, ControlLeft, ControlRight,
      AltLeft, AltRight]) :
    (keyDownHandler c e).after.textarea = c.textarea := by
  unfold keyDownHandler
  simp only []
  split
  · rfl
  · split
    · rfl
    · rename_i ch _
      have h2 := processKeyPress_modifier_textarea
        { c with current :=
          { element := getElementsByClassName c.element e.code, code := some e.code,
            event := some (.key e), char := some ch } } e.code rfl hm
      split
      · rename_i c2 hc2
        rw [hc2] at h2
        exact h2
      · rename_i c2 hc2
        rw [hc2] at h2
        split
        · rw [addActiveState_after_textarea]
          exact h2
        · exact h2

theorem mouseDownHandler_modifier_textarea (c : Controller) (e : MouseEvent)
    (i : Nat) (text : Str) (x : Cell)
    (hspan : e.target.span c.element = some (i, text)) (hx : c.element[i]? = some x)
    (hm : x.key.className ∈ [ShiftLeft, ShiftRight, CapsLock, ControlLeft, ControlRight,
      AltLeft, AltRight]) :
    (mouseDownHandler c e).after.textarea = c.textarea := by
  rw [mouseDownHandler_found c e i text x hspan hx]
  have h2 := processKeyPress_modifier_textarea
    { c with current :=
      { event := some (.mouse e), element := some i,
        code := some x.key.className, char := some text } } x.key.className rfl hm
  split
  · rename_i c2 hc2
    rw [hc2] at h2
    exact h2
  · rename_i c2 hc2
    rw [hc2] at h2
    have h3 : (if c2.current.code ≠ some CapsLock then addActiveState c2 else .ok c2).after.textarea
        = c.textarea := by
      split
      · rw [addActiveState_after_textarea]
        exact h2
      · exact h2
    split
    · rename_i c3 hc3
      rw [hc3] at h3
      exact h3
    · rename_i c3 hc3
      rw [hc3] at h3
      exact h3

theorem processKeyPress_lang_of_not_both (c : Controller) (ev : DomEvent)
    (hev : c.current.event = some ev) (h : (ev.ctrlKey && ev.altKey) = false) :
    (processKeyPress c).after.state.lang = c.state.lang
    ∧ (processKeyPress c).after.storedLang = c.storedLang :=
  kept_dispatch _ (kept_langStored _ _) c ev hev
    (by rw [chord_of_not_both c ev h]; exact ⟨rfl, rfl⟩)

theorem keyDownHandler_unknown (c : Controller) (hp : PageOk c) (e : KeyboardEvent)
    (hunk : e.code ∉ ROWS.flatten.map Key.className) :
    keyDownHandler c e = .ok { c with current :=
      { c.current with event := some (.key e), code := some e.code, element := none } } := by
  have hn := pageOk_lookup_none c hp e.code hunk
  unfold keyDownHandler
  simp only [hn]

theorem keyUpHandler_unknown (c : Controller) (hp : PageOk c) (e : KeyboardEvent)
    (hunk : e.code ∉ ROWS.flatten.map Key.className) :
    keyUpHandler c e = c := by
  have hn := pageOk_lookup_none c hp e.code hunk
  unfold keyUpHandler
  simp only [hn]

/-! ### At most one Shift flag -/

theorem kept_notBothShifts : Kept NotBothShifts where
  caps := fun c _ h => by
    unfold NotBothShifts at *
    rw [(toggleCase_flags _).1, (toggleCase_flags _).2.1]
    exact h
  shiftLeftDown := fun c _ _ hr => by
    unfold NotBothShifts
    rw [(toggleCase_flags _).1, (toggleCase_flags _).2.1]
    simp only [hr, Bool.and_false]
  shiftRightDown := fun c _ hl _ => by
    unfold NotBothShifts
    rw [(toggleCase_flags _).1, (toggleCase_flags _).2.1]
    simp only [hl, Bool.false_and]
  shiftLeftUp := fun c _ => by
    unfold NotBothShifts
    rw [(toggleCase_flags _).1, (toggleCase_flags _).2.1]
    simp only [Bool.false_and]
  shiftRightUp := fun c _ => by
    unfold NotBothShifts
    rw [(toggleCase_flags _).1, (toggleCase_flags _).2.1]
    simp only [Bool.and_false]
  active := fun _ _ _ h => h
  text := fun _ _ h => h
  current := fun _ _ h => h
  previous := fun _ _ h => h

theorem notBothShifts_toggleLang (c : Controller) (h : NotBothShifts c) :
    NotBothShifts (toggleLang c) := by
  unfold NotBothShifts at *
  rw [toggleLang_state]
  exact h

theorem notBothShifts_initPage (stored : Option Str) :
    NotBothShifts (initPage (newController stored)) := by
  unfold initPage
  simp only []
  split
  · exact notBothShifts_toggleLang _ rfl
  · rfl

theorem run_notBothShifts (stored : Option Str) (as : List Action) :
    NotBothShifts (run stored as) :=
  kept_run _ kept_notBothShifts notBothShifts_toggleLang notBothShifts_initPage stored as

theorem mouseDownHandler_shift (c : Controller) (e : MouseEvent)
    (i : Nat) (text : Str) (x : Cell)
    (hspan : e.target.span c.element = some (i, text)) (hx : c.element[i]? = some x)
    (hcode : x.key.className = ShiftLeft ∨ x.key.className = ShiftRight) :
    ∃ c1, mouseDownHandler c e = .ok c1
      ∧ c1.current.code = some x.key.className
      ∧ c1.current.element = some i
      ∧ c1.previous = c1.current
      ∧ c1.state.isCapsLockPressed = c.state.isCapsLockPressed
      ∧ c1.state.isShiftLeftPressed
          = (c.state.isShiftLeftPressed
              || (decide (x.key.className = ShiftLeft) && !c.state.isShiftRightPressed))
      ∧ c1.state.isShiftRightPressed
          = (c.state.isShiftRightPressed
              || (decide (x.key.className = ShiftRight) && !c.state.isShiftLeftPressed)) := by
  obtain ⟨c2, h2, hcur, g3, g1, g2⟩ := processKeyPress_shift_flags
    { c with current :=
      { event := some (.mouse e), element := some i,
        code := some x.key.className, char := some text } } (.mouse e) i x.key.className
    rfl rfl rfl hcode
  have hnn : (some x.key.className : Option Str) ≠ some CapsLock := by
    rcases hcode with h | h <;> rw [h] <;> decide
  have hel : c2.current.element = some i := by rw [hcur]
  rw [mouseDownHandler_found c e i text x hspan hx, h2]
  simp only [hcur, if_pos hnn, addActiveState_some c2 i hel]
  exact ⟨_, rfl, rfl, rfl, rfl, g3, g1, g2⟩

theorem shift_press_ignored (sl sr d : Bool) (h : (sl || sr) = true) :
    (sl || (d && !sr)) = sl ∧ (sr || (d && !sl)) = sr := by
  cases sl <;> cases sr <;> cases d <;> simp at h ⊢

theorem step_keyDown_ok (c c1 : Controller) (e : KeyboardEvent)
    (h : keyDownHandler c e = .ok c1) : step c (.keyDown e) = c1 := by
  simp only [step, h, Result.after]

theorem step_mouseDown_ok (c c1 : Controller) (e : MouseEvent)
    (h : mouseDownHandler c e = .ok c1) : step c (.mouseDown e) = c1 := by
  simp only [step, h, Result.after]

/-! ### Pointer release -/

theorem mouseUpRelease_flags (c : Controller) :
    (mouseUpRelease c).state.isCapsLockPressed = c.state.isCapsLockPressed
    ∧ (mouseUpRelease c).state.isShiftLeftPressed
        = (c.state.isShiftLeftPressed && !decide (c.current.code = some ShiftLeft))
    ∧ (mouseUpRelease c).state.isShiftRightPressed
        = (c.state.isShiftRightPressed && !decide (c.current.code = some ShiftRight)) := by
  unfold mouseUpRelease
  by_cases hcl : c.current.code ≠ some CapsLock
  · rw [if_pos hcl]
    simp only []
    have s1 := removeActiveState_state c
    have c1 := removeActiveState_current c
    generalize removeActiveState c = d at s1 c1 ⊢
    rw [← s1, ← c1]
    by_cases hL : d.state.isShiftLeftPressed = true ∧ d.current.code = some ShiftLeft
    · rw [if_pos hL]
      have hnr : d.current.code ≠ some ShiftRight := by rw [hL.2]; decide
      have hcur : (toggleCase { d with state := { d.state with isShiftLeftPressed := false } }).current
          = d.current := rfl
      have hnR : ¬ ((toggleCase { d with state := { d.state with isShiftLeftPressed := false } }).state.isShiftRightPressed = true
          ∧ (toggleCase { d with state := { d.state with isShiftLeftPressed := false } }).current.code
            = some ShiftRight) := by
        rw [hcur]
        exact fun h => hnr h.2
      rw [if_neg hnR]
      refine ⟨(toggleCase_flags _).2.2, ?_, ?_⟩
      · rw [(toggleCase_flags _).1]
        simp [hL.2]
      · rw [(toggleCase_flags _).2.1]
        simp [hnr]
    · rw [if_neg hL]
      by_cases hR : d.state.isShiftRightPressed = true ∧ d.current.code = some ShiftRight
      · rw [if_pos hR]
        have hnl : d.current.code ≠ some ShiftLeft := by rw [hR.2]; decide
        refine ⟨(toggleCase_flags _).2.2, ?_, ?_⟩
        · rw [(toggleCase_flags _).1]
          simp [hnl]
        · rw [(toggleCase_flags _).2.1]
          simp [hR.2]
      · rw [if_neg hR]
        refine ⟨rfl, ?_, ?_⟩
        · cases hb : d.state.isShiftLeftPressed
          · rfl
          · have : d.current.code ≠ some ShiftLeft := fun h => hL ⟨hb, h⟩
            simp [this]
        · cases hb : d.state.isShiftRightPressed
          · rfl
          · have : d.current.code ≠ some ShiftRight := fun h => hR ⟨hb, h⟩
            simp [this]
  · rw [if_neg hcl]
    have hc : c.current.code = some CapsLock := not_not.mp hcl
    have h1 : c.current.code ≠ some ShiftLeft := by rw [hc]; decide
    have h2 : c.current.code ≠ some ShiftRight := by rw [hc]; decide
    simp [h1, h2]

theorem mouseUpHandler_otherDiv (c : Controller) (e : MouseEvent) (h : e.target = .otherDiv) :
    mouseUpHandler c e = mouseUpRelease { c with current := c.previous } := by
  unfold mouseUpHandler
  rw [h]
  rfl

theorem mouseUpHandler_noDiv (c : Controller) (e : MouseEvent) (h : e.target = .noDiv) :
    mouseUpHandler c e
      = { c with current := { c.current with event := some (.mouse e), element := none } } := by
  unfold mouseUpHandler
  rw [h]
  rfl

theorem mouseUpHandler_key (c : Controller) (e : MouseEvent) (j : Nat) (y : Cell)
    (hy : c.element[j]? = some y)
    (h : e.target.closestDiv c.element = some (some (.inl j))) :
    mouseUpHandler c e = mouseUpRelease { c with current :=
      { element := some j, code := some y.key.className, event := some (.mouse e),
        char := c.current.char } } := by
  unfold mouseUpHandler
  simp only [h, hy, Option.map_some']

theorem mouseUpHandler_lang (c : Controller) (e : MouseEvent) :
    (mouseUpHandler c e).state.lang = c.state.lang :=
  (kept_mouseUpHandler _ (kept_langStored c.state.lang c.storedLang) c e ⟨rfl, rfl⟩).1

theorem pageOk_key_at (c d : Controller) (hc : PageOk c) (hd : PageOk d) (j : Nat) (y : Cell)
    (hy : c.element[j]? = some y) :
    ∃ z, d.element[j]? = some z ∧ z.key = y.key := by
  have h1 : (c.element.map Cell.key)[j]? = some y.key := by
    rw [List.getElem?_map, hy]
    rfl
  rw [hc.keys, ← hd.keys, List.getElem?_map] at h1
  cases hz : d.element[j]? with
  | none => rw [hz] at h1; cases h1
  | some z =>
    rw [hz] at h1
    exact ⟨z, rfl, Option.some.inj h1⟩

theorem state_ext (s t : State)
    (h1 : s.isShiftLeftPressed = t.isShiftLeftPressed)
    (h2 : s.isShiftRightPressed = t.isShiftRightPressed)
    (h3 : s.isCapsLockPressed = t.isCapsLockPressed)
    (h4 : s.case = t.case) (h5 : s.lang = t.lang) : s = t := by
  cases s
  cases t
  simp only [State.mk.injEq]
  exact ⟨h1, h2, h3, h4, h5⟩

theorem closestDiv_of_length (l1 l2 : List Cell) (t : Target) (h : l1.length = l2.length) :
    t.closestDiv l1 = t.closestDiv l2 := by
  have key : ∀ j : Nat, (l1[j]?).map (fun _ => some (Sum.inl j : Nat ⊕ Unit))
      = (l2[j]?).map (fun _ => some (Sum.inl j : Nat ⊕ Unit)) := by
    intro j
    by_cases hj : j < l1.length
    · have hj2 : j < l2.length := h ▸ hj
      rw [List.getElem?_eq_getElem hj, List.getElem?_eq_getElem hj2]
      rfl
    · have hj2 : ¬ j < l2.length := h ▸ hj
      rw [List.getElem?_eq_none (Nat.le_of_not_lt hj), List.getElem?_eq_none (Nat.le_of_not_lt hj2)]
  cases t with
  | caseSpan j _ _ => exact key j
  | langSpan j _ => exact key j
  | keyDiv j => exact key j
  | otherDiv => rfl
  | noDiv => rfl

theorem release_clears (c1 : Controller) (code : Str)
    (hl : c1.state.isShiftLeftPressed = decide (code = ShiftLeft))
    (hr : c1.state.isShiftRightPressed = decide (code = ShiftRight))
    (r : KeyRecord) (hrc : r.code = some code) :
    (mouseUpRelease { c1 with current := r }).state.isCapsLockPressed
        = c1.state.isCapsLockPressed
    ∧ (mouseUpRelease { c1 with current := r }).state.isShiftLeftPressed = false
    ∧ (mouseUpRelease { c1 with current := r }).state.isShiftRightPressed = false := by
  obtain ⟨f3, f1, f2⟩ := mouseUpRelease_flags { c1 with current := r }
  refine ⟨f3, ?_, ?_⟩
  · rw [f1]
    simp only [hl, hrc, Option.some.injEq]
    cases decide (code = ShiftLeft) <;> rfl
  · rw [f2]
    simp only [hr, hrc, Option.some.injEq]
    cases decide (code = ShiftRight) <;> rfl

theorem release_elsewhere_keeps (c1 : Controller) (code other : Str)
    (hcode : code = ShiftLeft ∨ code = ShiftRight) (hne : other ≠ code)
    (hl : c1.state.isShiftLeftPressed = decide (code = ShiftLeft))
    (hr : c1.state.isShiftRightPressed = decide (code = ShiftRight))
    (r : KeyRecord) (hrc : r.code = some other) :
    (mouseUpRelease { c1 with current := r }).state.isCapsLockPressed
        = c1.state.isCapsLockPressed
    ∧ (mouseUpRelease { c1 with current := r }).state.isShiftLeftPressed
        = c1.state.isShiftLeftPressed
    ∧ (mouseUpRelease { c1 with current := r }).state.isShiftRightPressed
        = c1.state.isShiftRightPressed := by
  obtain ⟨f3, f1, f2⟩ := mouseUpRelease_flags { c1 with current := r }
  have hlr : ShiftLeft ≠ ShiftRight := by decide
  refine ⟨f3, ?_, ?_⟩
  · rw [f1]
    simp only [hl, hrc, Option.some.injEq]
    rcases hcode with h | h
    · have : other ≠ ShiftLeft := h ▸ hne
      simp [h, this]
    · simp [h, hlr.symm]
  · rw [f2]
    simp only [hr, hrc, Option.some.injEq]
    rcases hcode with h | h
    · simp [h, hlr]
    · have : other ≠ ShiftRight := h ▸ hne
      simp [h, this]

theorem run_mouseUp (stored : Option Str) (as : List Action) (m : MouseEvent) :
    run stored (as ++ [.mouseUp m]) = mouseUpHandler (run stored as) m := by
  rw [run_snoc]
  rfl

/-- After a pointer press has set a Shift flag on a reached page, a release
handled with the pressed key's identifier clears both flags. -/
theorem run_release_clears (stored : Option Str) (as : List Action) (m : MouseEvent)
    (code : Str) (r : KeyRecord)
    (hm : mouseUpHandler (run stored as) m
      = mouseUpRelease { run stored as with current := r })
    (hrc : r.code = some code)
    (hl : (run stored as).state.isShiftLeftPressed = decide (code = ShiftLeft))
    (hr : (run stored as).state.isShiftRightPressed = decide (code = ShiftRight)) :
    (run stored (as ++ [.mouseUp m])).state
      = { isShiftLeftPressed := false
          isShiftRightPressed := false
          isCapsLockPressed := (run stored as).state.isCapsLockPressed
          case := specCase (run stored as).state.isCapsLockPressed false
          lang := (run stored as).state.lang } := by
  have hc := run_case stored (as ++ [.mouseUp m])
  have hlang := mouseUpHandler_lang (run stored as) m
  rw [run_mouseUp] at hc ⊢
  obtain ⟨f3, f1, f2⟩ := release_clears (run stored as) code hl hr r hrc
  rw [← hm] at f1 f2 f3
  rw [f1, f2, f3] at hc
  exact state_ext _ _ f1 f2 f3 hc hlang

/-! ## Pointer presses that are not on a span -/

/-- A pointer press whose target is not a span is ignored. -/
theorem mouseDownHandler_not_span (c : Controller) (m : MouseEvent)
    (h : m.target.span c.element = none) : mouseDownHandler c m = .ok c := by
  simp only [mouseDownHandler, h]


/-! ## Text buffer editor -/

/-- C3: for every buffer text, every cursor `s` with `0 <= s <= length(text)`
and every string `char`, `updateBuffer` returns with the buffer
`text[0..s) ++ char ++ text[s..)` and the collapsed cursor `s + length(char)`;
nothing else of the controller changes. -/
theorem C3_updateBuffer_insert (c : Controller) (ch : Str)
    (hch : c.current.char = some ch)
    (hs : c.textarea.selectionStart ≤ c.textarea.value.length) :
    updateBuffer c = .ok { c with textarea :=
      { value := c.textarea.value.take c.textarea.selectionStart ++ ch
                  ++ c.textarea.value.drop c.textarea.selectionStart
        selectionStart := c.textarea.selectionStart + ch.length
        selectionEnd := c.textarea.selectionStart + ch.length } } :=
  updateBuffer_some c ch hch hs

/-- C3 at the example of the specification: text `ab`, cursor 1, insert `X`
gives text `aXb`, cursor 2. -/
theorem C3_updateBuffer_insert_witness :
    (sampleState [] "X".toList).current.char = some "X".toList
    ∧ (sampleState [] "X".toList).textarea.selectionStart
        ≤ (sampleState [] "X".toList).textarea.value.length
    ∧ updateBuffer (sampleState [] "X".toList) = .ok { sampleState [] "X".toList with textarea :=
        { value := "aXb".toList, selectionStart := 2, selectionEnd := 2 } } :=
  ⟨rfl, by decide, C3_updateBuffer_insert (sampleState [] "X".toList) "X".toList rfl (by decide)⟩

/-- C4: a Backspace press (`processKeyPress` with `current.code` equal to
`Backspace`) returns; with the cursor `s > 0` the text loses the single
character at index `s - 1` and the collapsed cursor becomes `s - 1`; with
`s = 0` the text field is unchanged. -/
theorem C4_backspace (c : Controller) (ev : DomEvent)
    (hev : c.current.event = some ev) (hcode : c.current.code = some Backspace) :
    ∃ c1, processKeyPress c = .ok c1
      ∧ (0 < c.textarea.selectionStart →
          c1.textarea.value = c.textarea.value.eraseIdx (c.textarea.selectionStart - 1)
          ∧ c1.textarea.selectionStart = c.textarea.selectionStart - 1
          ∧ c1.textarea.selectionEnd = c.textarea.selectionStart - 1)
      ∧ (c.textarea.selectionStart = 0 → c1.textarea = c.textarea) := by
  refine ⟨_, processKeyPress_backspace c ev hev hcode, ?_, ?_⟩
  · intro hpos
    have hne : c.textarea.selectionStart ≠ 0 := by omega
    rw [if_pos hne, List.eraseIdx_eq_take_drop_succ]
    have : c.textarea.selectionStart - 1 + 1 = c.textarea.selectionStart := by omega
    rw [this]
    exact ⟨rfl, rfl, rfl⟩
  · intro h0
    have hne : ¬ c.textarea.selectionStart ≠ 0 := by omega
    rw [if_neg hne, chord_textarea]

/-- C4 on the text `ab` with the cursor at 1: Backspace leaves `b`, cursor 0. -/
theorem C4_backspace_witness :
    ∃ c1, processKeyPress (sampleState Backspace Backspace) = .ok c1
      ∧ (0 < 1 →
          c1.textarea.value = "ab".toList.eraseIdx (1 - 1)
          ∧ c1.textarea.selectionStart = 1 - 1
          ∧ c1.textarea.selectionEnd = 1 - 1)
      ∧ (1 = 0 → c1.textarea = (sampleState Backspace Backspace).textarea) :=
  C4_backspace (sampleState Backspace Backspace)
    (.key { code := Backspace, ctrlKey := false, altKey := false, isRepeat := false }) rfl rfl

/-- C5: a Delete press (`processKeyPress` with `current.code` equal to
`Delete`) returns; with the cursor `s < length(text)` the text loses the single
character at index `s` and the collapsed cursor stays `s`; with
`s = length(text)` the text field is unchanged. -/
theorem C5_delete (c : Controller) (ev : DomEvent)
    (hev : c.current.event = some ev) (hcode : c.current.code = some Delete) :
    ∃ c1, processKeyPress c = .ok c1
      ∧ (c.textarea.selectionStart < c.textarea.value.length →
          c1.textarea.value = c.textarea.value.eraseIdx c.textarea.selectionStart
          ∧ c1.textarea.selectionStart = c.textarea.selectionStart
          ∧ c1.textarea.selectionEnd = c.textarea.selectionStart)
      ∧ (c.textarea.selectionStart = c.textarea.value.length → c1.textarea = c.textarea) := by
  refine ⟨_, processKeyPress_delete c ev hev hcode, ?_, ?_⟩
  · intro hlt
    have hne : c.textarea.selectionStart ≠ c.textarea.value.length := by omega
    rw [if_pos hne, List.eraseIdx_eq_take_drop_succ]
    exact ⟨rfl, rfl, rfl⟩
  · intro h0
    have hne : ¬ c.textarea.selectionStart ≠ c.textarea.value.length := by omega
    rw [if_neg hne, chord_textarea]

/-- C5 on the text `ab` with the cursor at 1: Delete leaves `a`, cursor 1. -/
theorem C5_delete_witness :
    ∃ c1, processKeyPress (sampleState Delete "Del".toList) = .ok c1
      ∧ (1 < 2 →
          c1.textarea.value = "ab".toList.eraseIdx 1
          ∧ c1.textarea.selectionStart = 1
          ∧ c1.textarea.selectionEnd = 1)
      ∧ (1 = 2 → c1.textarea = (sampleState Delete "Del".toList).textarea) :=
  C5_delete (sampleState Delete "Del".toList)
    (.key { code := Delete, ctrlKey := false, altKey := false, isRepeat := false }) rfl rfl

/-- C6: with the cursor `s` inside the text, pressing ArrowLeft or ArrowUp
returns with the cursor at `max(s - 1, 0)` and pressing ArrowRight or
ArrowDown returns with the cursor at `min(s + 1, length(text))`; the text is
unchanged in all four cases, and a collapsed selection stays collapsed. -/
theorem C6_arrows (c : Controller) (ev : DomEvent)
    (hev : c.current.event = some ev) (hs : CursorOk c.textarea) :
    ((c.current.code = some ArrowLeft ∨ c.current.code = some ArrowUp) →
      ∃ c1, processKeyPress c = .ok c1
        ∧ c1.textarea.value = c.textarea.value
        ∧ (c1.textarea.selectionStart : Int) = max ((c.textarea.selectionStart : Int) - 1) 0
        ∧ (c.textarea.selectionEnd = c.textarea.selectionStart →
            c1.textarea.selectionEnd = c1.textarea.selectionStart))
    ∧ ((c.current.code = some ArrowRight ∨ c.current.code = some ArrowDown) →
      ∃ c1, processKeyPress c = .ok c1
        ∧ c1.textarea.value = c.textarea.value
        ∧ c1.textarea.selectionStart = min (c.textarea.selectionStart + 1) c.textarea.value.length
        ∧ (c.textarea.selectionEnd = c.textarea.selectionStart →
            c1.textarea.selectionEnd = c1.textarea.selectionStart)) := by
  unfold CursorOk at hs
  constructor
  · intro hcode
    refine ⟨_, processKeyPress_arrowBack c ev hev hcode, ?_⟩
    by_cases hne : c.textarea.selectionStart ≠ 0
    · rw [if_pos hne]
      refine ⟨rfl, ?_, fun _ => rfl⟩
      show ((c.textarea.selectionStart - 1 : Nat) : Int) = _
      omega
    · rw [if_neg hne, chord_textarea]
      refine ⟨rfl, ?_, fun h => h⟩
      omega
  · intro hcode
    refine ⟨_, processKeyPress_arrowForward c ev hev hcode, ?_⟩
    by_cases hne : c.textarea.selectionStart ≠ c.textarea.value.length
    · rw [if_pos hne]
      refine ⟨rfl, ?_, fun _ => rfl⟩
      show c.textarea.selectionStart + 1 = _
      omega
    · rw [if_neg hne, chord_textarea]
      refine ⟨rfl, ?_, fun h => h⟩
      omega

/-- C6 on the text `ab` with the cursor at 1. -/
theorem C6_arrows_witness :
    CursorOk (sampleState ArrowLeft "←".toList).textarea
    ∧ ∃ c1, processKeyPress (sampleState ArrowLeft "←".toList) = .ok c1
        ∧ c1.textarea.value = "ab".toList
        ∧ (c1.textarea.selectionStart : Int) = max ((1 : Int) - 1) 0 :=
  ⟨by decide,
    let ⟨c1, h1, h2, h3, _⟩ := (C6_arrows (sampleState ArrowLeft "←".toList)
      (.key { code := ArrowLeft, ctrlKey := false, altKey := false, isRepeat := false })
      rfl (by decide)).1 (Or.inl rfl)
    ⟨c1, h1, h2, h3⟩⟩

/-- C7: cursor-range invariant.  If `0 <= cursor <= length(text)` holds in a
state, it holds again in the state `processKeyPress` leaves (whatever
`current.code` and `current.char` are, and whether it returns or throws) and
in the state any handler leaves; hence it holds in every state reached from
start-up, where the text is empty and the cursor is 0. -/
theorem C7_cursor_in_range (c : Controller) (h : CursorOk c.textarea) :
    CursorOk (processKeyPress c).after.textarea
    ∧ (∀ a : Action, CursorOk (step c a).textarea)
    ∧ (∀ (stored : Option Str) (as : List Action), CursorOk (run stored as).textarea) :=
  ⟨closed_processKeyPress _ closed_cursorOk c h,
   fun a => closed_step _ closed_cursorOk c a h,
   fun stored as => run_cursorOk stored as⟩

/-- C7 on the text `ab` with the cursor at 1 and a pending `KeyA`. -/
theorem C7_cursor_in_range_witness :
    CursorOk (sampleState "KeyA".toList "a".toList).textarea
    ∧ CursorOk (processKeyPress (sampleState "KeyA".toList "a".toList)).after.textarea :=
  ⟨by decide, (C7_cursor_in_range (sampleState "KeyA".toList "a".toList) (by decide)).1⟩

/-- C8: with the cursor `s` inside the text, pressing Tab returns with the
one-character string U+0009 spliced in at `s` and pressing Enter with U+000A
spliced in at `s`, whatever `current.char` (the glyph read from the key) was;
the collapsed cursor becomes `s + 1`. -/
theorem C8_tab_enter (c : Controller) (ev : DomEvent)
    (hev : c.current.event = some ev) (hs : CursorOk c.textarea) :
    (c.current.code = some Tab →
      ∃ c1, processKeyPress c = .ok c1
        ∧ c1.textarea =
          { value := c.textarea.value.take c.textarea.selectionStart ++ [Char.ofNat 9]
              ++ c.textarea.value.drop c.textarea.selectionStart
            selectionStart := c.textarea.selectionStart + 1
            selectionEnd := c.textarea.selectionStart + 1 })
    ∧ (c.current.code = some Enter →
      ∃ c1, processKeyPress c = .ok c1
        ∧ c1.textarea =
          { value := c.textarea.value.take c.textarea.selectionStart ++ [Char.ofNat 10]
              ++ c.textarea.value.drop c.textarea.selectionStart
            selectionStart := c.textarea.selectionStart + 1
            selectionEnd := c.textarea.selectionStart + 1 }) := by
  unfold CursorOk at hs
  constructor
  · intro hcode
    have hd := processKeyPress_default c ev hev (by rw [hcode]; decide)
    have hn : c.current.code ∉ [some AltLeft, some AltRight, some ControlLeft, some ControlRight] := by
      rw [hcode]; decide
    rw [if_pos hn, if_pos (Or.inl hcode), if_pos hcode] at hd
    rw [hd, updateBuffer_some _ (unit 9) rfl (by simpa [chord_textarea] using hs)]
    exact ⟨_, rfl, by simp [chord_textarea, unit]⟩
  · intro hcode
    have hd := processKeyPress_default c ev hev (by rw [hcode]; decide)
    have hn : c.current.code ∉ [some AltLeft, some AltRight, some ControlLeft, some ControlRight] := by
      rw [hcode]; decide
    have hnt : c.current.code ≠ some Tab := by rw [hcode]; decide
    rw [if_pos hn, if_pos (Or.inr hcode), if_neg hnt] at hd
    rw [hd, updateBuffer_some _ (unit 10) rfl (by simpa [chord_textarea] using hs)]
    exact ⟨_, rfl, by simp [chord_textarea, unit]⟩

/-- C8 on the text `ab` with the cursor at 1, the Tab key showing `Tab`. -/
theorem C8_tab_enter_witness :
    CursorOk (sampleState Tab Tab).textarea
    ∧ ∃ c1, processKeyPress (sampleState Tab Tab) = .ok c1
        ∧ c1.textarea =
          { value := "ab".toList.take 1 ++ [Char.ofNat 9] ++ "ab".toList.drop 1
            selectionStart := 1 + 1
            selectionEnd := 1 + 1 } :=
  ⟨by decide,
   (C8_tab_enter (sampleState Tab Tab)
      (.key { code := Tab, ctrlKey := false, altKey := false, isRepeat := false })
      rfl (by decide)).1 rfl⟩

/-! ## Case/shift state machine -/

/-- C1: in every state reached from start-up by key-down, key-up,
pointer-press, pointer-release and `toggleLang` calls, `state.case` is the
entry of the table for (`isCapsLockPressed`, `isShiftLeftPressed` or
`isShiftRightPressed`): neither gives `caseDown`, Shift only `caseUp`, CapsLock
only `caps`, both `shiftCaps`; and on such a page `toggleCase` sets
`state.case` to that entry for every combination of the three flags, leaving
the flags and the locale as they are. -/
theorem C1_case_table (stored : Option Str) (as : List Action) :
    (run stored as).state.case
        = specCase (run stored as).state.isCapsLockPressed
            ((run stored as).state.isShiftLeftPressed || (run stored as).state.isShiftRightPressed)
    ∧ (∀ st : State, (toggleCase { run stored as with state := st }).state
        = { st with case := (specCase st.isCapsLockPressed
              (st.isShiftLeftPressed || st.isShiftRightPressed)) })
    ∧ specCase false false = CASE_DOWN ∧ specCase false true = CASE_UP
    ∧ specCase true false = CAPS ∧ specCase true true = SHIFT_CAPS := by
  refine ⟨run_caseOk stored as, ?_, rfl, rfl, rfl, rfl⟩
  intro st
  exact toggleCase_state _ (pageOk_isEmpty (run stored as) (run_pageOk stored as))

/-! ## Event router -/

/-- C2: in every state reached from start-up and for every key of `ROWS` that
is neither Shift, CapsLock, Ctrl, Alt, Backspace, Delete, an arrow, Tab nor
Enter, a physical key-down on that key returns and splices into the text, at
the cursor, exactly the glyph `ROWS[key][state.lang][state.case]` for the
locale and case at the moment the event arrives (also when the event carries
Ctrl+Alt and toggles the locale); and for every key of `ROWS` the element read
by the handler holds that glyph: below the cell of the key the elements
without `hidden` are exactly the span of the active locale and, inside it, the
span of the active case. -/
theorem C2_keyDown_inserts_glyph (stored : Option Str) (as : List Action)
    (k : Key) (hk : k ∈ ROWS.flatten)
    (hprint : k.className ∉ [ShiftLeft, ShiftRight, CapsLock, ControlLeft, ControlRight,
      AltLeft, AltRight, Backspace, Delete, ArrowLeft, ArrowUp, ArrowRight, ArrowDown, Tab, Enter])
    (e : KeyboardEvent) (he : e.code = k.className) :
    (∃ c1, keyDownHandler (run stored as) e = .ok c1
      ∧ c1.textarea =
        { value := (run stored as).textarea.value.take (run stored as).textarea.selectionStart
            ++ (k.get (run stored as).state.lang).get (run stored as).state.case
            ++ (run stored as).textarea.value.drop (run stored as).textarea.selectionStart
          selectionStart := (run stored as).textarea.selectionStart
            + ((k.get (run stored as).state.lang).get (run stored as).state.case).length
          selectionEnd := (run stored as).textarea.selectionStart
            + ((k.get (run stored as).state.lang).get (run stored as).state.case).length })
    ∧ (∀ k2 ∈ ROWS.flatten, ∃ i x,
        getElementsByClassName (run stored as).element k2.className = some i
        ∧ (run stored as).element[i]? = some x
        ∧ x.key = k2
        ∧ x.shownText = some ((k2.get (run stored as).state.lang).get (run stored as).state.case)
        ∧ (x.descendants.filter (fun d => !d.1)).map (fun d => d.2)
            = [(CASING.map (k2.get (run stored as).state.lang).get).flatten,
               (k2.get (run stored as).state.lang).get (run stored as).state.case]) := by
  have hp := run_pageOk stored as
  refine ⟨keyDownHandler_printable _ hp (run_cursorOk stored as) k hk hprint e he, ?_⟩
  intro k2 hk2
  obtain ⟨i, x, hi, hx, rfl⟩ := pageOk_lookup _ hp k2 hk2
  have hmem : x ∈ (run stored as).element := List.getElem?_mem hx
  exact ⟨i, x, hi, hx, rfl, pageOk_shownText _ hp i x hx,
    shownDescendants_of x _ _ (hp.shown x hmem) (hp.hid x hmem)⟩

/-- C2 right after start-up with an empty store: a key-down on `KeyA` makes the
text `a` with the cursor at 1. -/
theorem C2_keyDown_inserts_glyph_witness :
    sampleKey ∈ ROWS.flatten
    ∧ ∃ c1, keyDownHandler (run none []) (keyEvent "KeyA".toList false) = .ok c1
        ∧ c1.textarea = { value := "a".toList, selectionStart := 1, selectionEnd := 1 } :=
  ⟨by decide,
   (C2_keyDown_inserts_glyph none [] sampleKey (by decide) (by decide)
      (keyEvent "KeyA".toList false) rfl).1⟩

/-- C10: in every state reached from start-up in which no Shift is down, a
key-down of ShiftLeft followed by a key-up of ShiftLeft returns `state.case`
and the three modifier flags to their values before the press; between the two
events `isShiftLeftPressed` is set and the case is the shifted variant of the
case before the press (`caseUp` for `caseDown`, `shiftCaps` for `caps`). -/
theorem C10_shift_press_release (stored : Option Str) (as : List Action)
    (e1 e2 : KeyboardEvent) (h1 : e1.code = ShiftLeft) (h2 : e2.code = ShiftLeft)
    (hl : (run stored as).state.isShiftLeftPressed = false)
    (hr : (run stored as).state.isShiftRightPressed = false) :
    (step (step (run stored as) (.keyDown e1)) (.keyUp e2)).state.case = (run stored as).state.case
    ∧ (step (step (run stored as) (.keyDown e1)) (.keyUp e2)).state.isShiftLeftPressed
        = (run stored as).state.isShiftLeftPressed
    ∧ (step (step (run stored as) (.keyDown e1)) (.keyUp e2)).state.isShiftRightPressed
        = (run stored as).state.isShiftRightPressed
    ∧ (step (step (run stored as) (.keyDown e1)) (.keyUp e2)).state.isCapsLockPressed
        = (run stored as).state.isCapsLockPressed
    ∧ (step (run stored as) (.keyDown e1)).state.isShiftLeftPressed = true
    ∧ (((run stored as).state.case = CASE_DOWN
          ∧ (step (run stored as) (.keyDown e1)).state.case = CASE_UP)
        ∨ ((run stored as).state.case = CAPS
          ∧ (step (run stored as) (.keyDown e1)).state.case = SHIFT_CAPS)) := by
  have hc0 := run_caseOk stored as
  unfold CaseOk at hc0
  obtain ⟨d3, d1, d2⟩ := step_keyDown_shift _ (run_pageOk stored as) e1 (Or.inl h1)
  have hc1 := step_reachable_caseOk stored as (.keyDown e1)
  have hp1 := step_reachable_pageOk stored as (.keyDown e1)
  obtain ⟨u3, u1, u2⟩ := keyUpHandler_shift _ hp1 e2 (Or.inl h2)
  have hc2 := step_reachable_caseOk stored (as ++ [.keyDown e1]) (.keyUp e2)
  rw [run_snoc] at hc2
  have hne : ShiftLeft ≠ ShiftRight := by decide
  have k2 : (step (step (run stored as) (.keyDown e1)) (.keyUp e2))
      = keyUpHandler (step (run stored as) (.keyDown e1)) e2 := rfl
  rw [k2] at hc2 ⊢
  simp only [hl, hr, h1, decide_True, Bool.not_false, Bool.and_true, Bool.or_true, Bool.false_or,
    hne, decide_False, Bool.false_and, Bool.or_false] at d1 d2
  simp only [d1, d2, h2, decide_True, Bool.not_true, Bool.and_false, hne, decide_False,
    Bool.not_false, Bool.and_true, Bool.false_and] at u1 u2
  simp only [u1, u2, u3, d3, Bool.or_false] at hc2
  simp only [d1, d2, d3, Bool.or_false] at hc1
  simp only [hl, hr, Bool.or_false] at hc0
  refine ⟨by rw [hc2, hc0], by rw [u1, hl], by rw [u2, hr], by rw [u3, d3], d1, ?_⟩
  rw [hc1, hc0]
  cases (run stored as).state.isCapsLockPressed
  · exact Or.inl ⟨rfl, rfl⟩
  · exact Or.inr ⟨rfl, rfl⟩

/-- C10 right after start-up: ShiftLeft down gives `caseUp`, ShiftLeft up gives
back `caseDown`. -/
theorem C10_shift_press_release_witness :
    (run none []).state.isShiftLeftPressed = false
    ∧ (run none []).state.isShiftRightPressed = false
    ∧ (step (step (run none []) (.keyDown (keyEvent ShiftLeft false)))
        (.keyUp (keyEvent ShiftLeft false))).state.case = (run none []).state.case :=
  ⟨by decide, by decide,
   (C10_shift_press_release none [] (keyEvent ShiftLeft false) (keyEvent ShiftLeft false)
      rfl rfl (by decide) (by decide)).1⟩

/-- C9 fails as stated: with CapsLock on and no Shift down, after key-down
ShiftLeft, key-down ShiftRight and key-up ShiftLeft the case is `caps`, not
`shiftCaps`, although ShiftRight is still held. -/
theorem C9_counterexample :
    (run none [.keyDown (keyEvent CapsLock false)]).state.isCapsLockPressed = true
    ∧ (run none [.keyDown (keyEvent CapsLock false)]).state.isShiftLeftPressed = false
    ∧ (run none [.keyDown (keyEvent CapsLock false)]).state.isShiftRightPressed = false
    ∧ (run none [.keyDown (keyEvent CapsLock false), .keyDown (keyEvent ShiftLeft false),
        .keyDown (keyEvent ShiftRight false), .keyUp (keyEvent ShiftLeft false)]).state.case
        ≠ SHIFT_CAPS := by
  decide

/-- C9, amended: from a reached state with CapsLock on and no Shift down, a
key-down of ShiftLeft makes the case `shiftCaps`; a following key-down of
ShiftRight is ignored (`isShiftRightPressed` stays false, the case stays
`shiftCaps`); a key-up of ShiftLeft then makes the case `caps` and a later
key-up of ShiftRight leaves it `caps`.  When instead ShiftRight is released
first, the case stays `shiftCaps` until ShiftLeft is released. -/
theorem C9_second_shift_ignored (stored : Option Str) (as : List Action)
    (e1 e2 e3 e4 : KeyboardEvent)
    (h1 : e1.code = ShiftLeft) (h2 : e2.code = ShiftRight)
    (h3 : e3.code = ShiftLeft) (h4 : e4.code = ShiftRight)
    (hcaps : (run stored as).state.isCapsLockPressed = true)
    (hl : (run stored as).state.isShiftLeftPressed = false)
    (hr : (run stored as).state.isShiftRightPressed = false) :
    (run stored (as ++ [.keyDown e1])).state.case = SHIFT_CAPS
    ∧ (run stored (as ++ [.keyDown e1] ++ [.keyDown e2])).state.case = SHIFT_CAPS
    ∧ (run stored (as ++ [.keyDown e1] ++ [.keyDown e2])).state.isShiftRightPressed = false
    ∧ (run stored (as ++ [.keyDown e1] ++ [.keyDown e2] ++ [.keyUp e3])).state.case = CAPS
    ∧ (run stored (as ++ [.keyDown e1] ++ [.keyDown e2] ++ [.keyUp e3] ++ [.keyUp e4])).state.case
        = CAPS
    ∧ (run stored (as ++ [.keyDown e1] ++ [.keyDown e2] ++ [.keyUp e4])).state.case = SHIFT_CAPS
    ∧ (run stored (as ++ [.keyDown e1] ++ [.keyDown e2] ++ [.keyUp e4] ++ [.keyUp e3])).state.case
        = CAPS := by
  have hne : ShiftLeft ≠ ShiftRight := by decide
  have hne2 : ShiftRight ≠ ShiftLeft := by decide
  obtain ⟨a3, a1, a2⟩ := run_keyDown_shift stored as e1 (Or.inl h1)
  simp only [hcaps, hl, hr, h1, hne, decide_True, decide_False, Bool.not_false, Bool.and_true,
    Bool.false_or, Bool.false_and, Bool.or_false] at a1 a2 a3
  obtain ⟨b3, b1, b2⟩ := run_keyDown_shift stored (as ++ [.keyDown e1]) e2 (Or.inr h2)
  simp only [a1, a2, a3, h2, hne2, decide_True, decide_False, Bool.not_true, Bool.not_false,
    Bool.and_true, Bool.and_false, Bool.false_and, Bool.or_false, Bool.true_or] at b1 b2 b3
  obtain ⟨c3, c1, c2⟩ := run_keyUp_shift stored (as ++ [.keyDown e1] ++ [.keyDown e2]) e3 (Or.inl h3)
  simp only [b1, b2, b3, h3, hne, decide_True, decide_False, Bool.not_true, Bool.not_false,
    Bool.and_true, Bool.and_false, Bool.false_and] at c1 c2 c3
  obtain ⟨d3, d1, d2⟩ := run_keyUp_shift stored
    (as ++ [.keyDown e1] ++ [.keyDown e2] ++ [.keyUp e3]) e4 (Or.inr h4)
  simp only [c1, c2, c3, h4, hne2, decide_True, decide_False, Bool.not_true, Bool.not_false,
    Bool.and_true, Bool.and_false, Bool.false_and] at d1 d2 d3
  obtain ⟨p3, p1, p2⟩ := run_keyUp_shift stored (as ++ [.keyDown e1] ++ [.keyDown e2]) e4 (Or.inr h4)
  simp only [b1, b2, b3, h4, hne2, decide_True, decide_False, Bool.not_true, Bool.not_false,
    Bool.and_true, Bool.and_false, Bool.false_and] at p1 p2 p3
  obtain ⟨q3, q1, q2⟩ := run_keyUp_shift stored
    (as ++ [.keyDown e1] ++ [.keyDown e2] ++ [.keyUp e4]) e3 (Or.inl h3)
  simp only [p1, p2, p3, h3, hne, decide_True, decide_False, Bool.not_true, Bool.not_false,
    Bool.and_true, Bool.and_false, Bool.false_and] at q1 q2 q3
  refine ⟨?_, ?_, b2, ?_, ?_, ?_, ?_⟩
  · rw [run_case, a1, a2, a3]; rfl
  · rw [run_case, b1, b2, b3]; rfl
  · rw [run_case, c1, c2, c3]; rfl
  · rw [run_case, d1, d2, d3]; rfl
  · rw [run_case, p1, p2, p3]; rfl
  · rw [run_case, q1, q2, q3]; rfl

/-- C9, amended, right after a CapsLock press: the release of ShiftLeft ends
the shifted variant while ShiftRight is still held. -/
theorem C9_second_shift_ignored_witness :
    (run none [.keyDown (keyEvent CapsLock false)]).state.isCapsLockPressed = true
    ∧ (run none [.keyDown (keyEvent CapsLock false)]).state.isShiftLeftPressed = false
    ∧ (run none [.keyDown (keyEvent CapsLock false)]).state.isShiftRightPressed = false
    ∧ (run none ([.keyDown (keyEvent CapsLock false)] ++ [.keyDown (keyEvent ShiftLeft false)]
        ++ [.keyDown (keyEvent ShiftRight false)] ++ [.keyUp (keyEvent ShiftLeft false)])).state.case
        = CAPS :=
  ⟨by decide, by decide, by decide,
   (C9_second_shift_ignored none [.keyDown (keyEvent CapsLock false)]
      (keyEvent ShiftLeft false) (keyEvent ShiftRight false)
      (keyEvent ShiftLeft false) (keyEvent ShiftRight false)
      rfl rfl rfl rfl (by decide) (by decide) (by decide)).2.2.2.1⟩

/-! ## Layout table builder -/

/-- C13 fails as stated: for the letter `q` given without a second form the
`shiftCaps` form is `q` itself, not its upper case `Q`. -/
theorem C13_counterexample :
    toUpperCase "q".toList = "Q".toList
    ∧ (makeLocale "q".toList none).shiftCaps = "q".toList
    ∧ (makeLocale "q".toList none).shiftCaps ≠ toUpperCase "q".toList := by
  decide

/-- C13, amended: for every `u` and whatever the library's upper-casing `up`
does, `makeLocale(u)` with no second form (omitted or empty) returns
`caseDown = u`, `caseUp` and `caps` equal to the upper case `up u`, and
`shiftCaps = u`, so all four forms are `u` when upper-casing leaves `u` as it
is; the `makeLocale` of the layout is this function at the upper-casing of the
layout alphabet, and gives `q`, `Q`, `Q`, `q` for the letter `q`. -/
theorem C13_makeLocale_single (up : Str → Str) (u : Str) :
    makeLocaleWith up u none
        = { caseDown := u, caseUp := up u, caps := up u, shiftCaps := u }
    ∧ makeLocaleWith up u (some [])
        = { caseDown := u, caseUp := up u, caps := up u, shiftCaps := u }
    ∧ (∀ v : Option Str, makeLocale u v = makeLocaleWith toUpperCase u v)
    ∧ makeLocale "q".toList none
        = { caseDown := "q".toList, caseUp := "Q".toList,
            caps := "Q".toList, shiftCaps := "q".toList } := by
  refine ⟨?_, ?_, ?_, by decide⟩
  · simp only [makeLocaleWith, makeObj]
    by_cases h : up u = u
    · simp [h]
    · simp [h]
  · simp only [makeLocaleWith, makeObj]
    by_cases h : up u = u
    · simp [h]
    · simp [h]
  · intro v
    cases v with
    | none => rfl
    | some w =>
      cases w with
      | nil => rfl
      | cons a w => rfl

/-- C14: for every `u` and every non-empty `v`, `makeLocale(u, v)` returns
`caseDown = u`, `caseUp = v`, `caps = u`, `shiftCaps = v`; and the first key
`makeDigitKeys` builds for `ROWS`, which is `ROWS[0][1]`, is `Digit1` with
lower `1`, upper `!`, caps `1`, shiftCaps `!` in both locales. -/
theorem C14_makeLocale_pair (u v : Str) (hv : v ≠ []) :
    makeLocale u (some v) = { caseDown := u, caseUp := v, caps := u, shiftCaps := v }
    ∧ (makeDigitKeys "1234567890".toList "!@#$%^&*()".toList
          ("!".toList ++ unit 34 ++ "№;%:?*()".toList)).head?
        = some
          { className := "Digit1".toList
            en := { caseDown := "1".toList, caseUp := "!".toList,
                    caps := "1".toList, shiftCaps := "!".toList }
            ru := { caseDown := "1".toList, caseUp := "!".toList,
                    caps := "1".toList, shiftCaps := "!".toList } }
    ∧ (ROWS[0]?).bind (fun row => row[1]?)
        = some
          { className := "Digit1".toList
            en := { caseDown := "1".toList, caseUp := "!".toList,
                    caps := "1".toList, shiftCaps := "!".toList }
            ru := { caseDown := "1".toList, caseUp := "!".toList,
                    caps := "1".toList, shiftCaps := "!".toList } } := by
  refine ⟨?_, by decide, by decide⟩
  cases v with
  | nil => exact absurd rfl hv
  | cons a w => rfl

/-- C14 at the forms of the key `Digit1`. -/
theorem C14_makeLocale_pair_witness :
    "!".toList ≠ []
    ∧ makeLocale "1".toList (some "!".toList)
        = { caseDown := "1".toList, caseUp := "!".toList,
            caps := "1".toList, shiftCaps := "!".toList } :=
  ⟨by decide, (C14_makeLocale_pair "1".toList "!".toList (by decide)).1⟩

/-! ## Locale toggle -/

/-- C15 fails as stated: in the fresh state no flag is persisted, and after two
calls of `toggleLang` the flag holds `en`. -/
theorem C15_counterexample :
    (run none []).storedLang = none
    ∧ (toggleLang (toggleLang (run none []))).storedLang = some "en".toList
    ∧ (toggleLang (toggleLang (run none []))).storedLang ≠ (run none []).storedLang := by
  decide

/-- C15, amended: for every state, calling `toggleLang` twice returns
`state.lang`, and with it the whole controller and page, to what it was, and
leaves the persisted flag equal to the name of that locale; so the flag is back
at its former value exactly when it named the active locale before.  In every
state reached from start-up the flag selects `ru` after the two calls exactly
when it did before, so the next load restores the same locale. -/
theorem C15_toggleLang_twice (c : Controller) (stored : Option Str) (as : List Action) :
    toggleLang (toggleLang c) = { c with storedLang := some c.state.lang.str }
    ∧ ((toggleLang (toggleLang c)).storedLang = c.storedLang
        ↔ c.storedLang = some c.state.lang.str)
    ∧ ((toggleLang (toggleLang (run stored as))).storedLang = some RU.str
        ↔ (run stored as).storedLang = some RU.str) := by
  refine ⟨toggleLang_toggleLang c, ?_, ?_⟩
  · rw [toggleLang_toggleLang]
    exact eq_comm
  · rw [toggleLang_toggleLang]
    have h := run_langSync stored as
    unfold LangSync at h
    rw [h]
    exact lang_str_eq_ru _

/-- C16: for every state, `toggleLang` swaps `state.lang` between `en` and `ru`,
writes the name of the new locale to the persisted flag and leaves the three
modifier flags and `state.case` as they are, whatever the pending event is (an
explicit call and the restore at start-up included); `processKeyPress` on an
event with both `ctrlKey` and `altKey` set leaves the locale and the flag
exactly as one such toggle does, and so does a key-down of any key of `ROWS`
with both set in a state reached from start-up. -/
theorem C16_toggleLang_frame (c : Controller) :
    (toggleLang c).state = { c.state with lang := otherLang c.state.lang }
    ∧ otherLang EN = RU ∧ otherLang RU = EN
    ∧ (toggleLang c).storedLang = some (otherLang c.state.lang).str
    ∧ (toggleLang c).state.isShiftLeftPressed = c.state.isShiftLeftPressed
    ∧ (toggleLang c).state.isShiftRightPressed = c.state.isShiftRightPressed
    ∧ (toggleLang c).state.isCapsLockPressed = c.state.isCapsLockPressed
    ∧ (toggleLang c).state.case = c.state.case
    ∧ (toggleLang c).textarea = c.textarea
    ∧ (initPage (newController (some RU.str))).state.lang = RU
    ∧ (∀ ev : DomEvent, c.current.event = some ev → ev.ctrlKey = true → ev.altKey = true →
        (processKeyPress c).after.state.lang = (toggleLang c).state.lang
        ∧ (processKeyPress c).after.storedLang = (toggleLang c).storedLang)
    ∧ (∀ (stored : Option Str) (as : List Action) (k : Key) (e : KeyboardEvent),
        k ∈ ROWS.flatten → e.code = k.className → e.ctrlKey = true → e.altKey = true →
        (keyDownHandler (run stored as) e).after.state.lang
            = otherLang (run stored as).state.lang
        ∧ (keyDownHandler (run stored as) e).after.storedLang
            = some (otherLang (run stored as).state.lang).str) := by
  have hst := toggleLang_state c
  refine ⟨hst, rfl, rfl, toggleLang_storedLang c, by rw [hst], by rw [hst], by rw [hst],
    by rw [hst], rfl, by decide, ?_, ?_⟩
  · intro ev hev hctrl halt
    exact kept_dispatch _ (kept_langStored _ _) c ev hev
      (by rw [chord_of_both c ev hctrl halt]; exact ⟨rfl, rfl⟩)
  · intro stored as k e hk he h1 h2
    exact keyDownHandler_chord _ (run_pageOk stored as) k hk e he h1 h2

/-- C16 on a key-down of `AltLeft` with Ctrl held, in the locale `en`: the
locale becomes `ru`. -/
theorem C16_toggleLang_frame_witness :
    sampleChordState.current.event = some (.key (chordEvent AltLeft))
    ∧ (processKeyPress sampleChordState).after.state.lang = (toggleLang sampleChordState).state.lang
    ∧ (toggleLang sampleChordState).state.lang = RU :=
  ⟨rfl,
   ((C16_toggleLang_frame sampleChordState).2.2.2.2.2.2.2.2.2.2.1
      (.key (chordEvent AltLeft)) rfl rfl rfl).1,
   by decide⟩

/-! ## CapsLock -/

/-- C11, the code at the failing input: CapsLock is switched on and off again
by two presses, and the second press is held; its first auto-repeat event
(`repeat = true`) arrives with CapsLock off and switches it on, changing the
case from `caseDown` to `caps`.  With CapsLock on, an auto-repeat event leaves
the flag and the case as they are. -/
theorem C11_repeat_sets_capsLock :
    (run none [.keyDown (keyEvent CapsLock false), .keyUp (keyEvent CapsLock false),
        .keyDown (keyEvent CapsLock false)]).state.isCapsLockPressed = false
    ∧ (run none [.keyDown (keyEvent CapsLock false), .keyUp (keyEvent CapsLock false),
        .keyDown (keyEvent CapsLock false)]).state.case = CASE_DOWN
    ∧ (run none [.keyDown (keyEvent CapsLock false), .keyUp (keyEvent CapsLock false),
        .keyDown (keyEvent CapsLock false),
        .keyDown (keyEvent CapsLock true)]).state.isCapsLockPressed = true
    ∧ (run none [.keyDown (keyEvent CapsLock false), .keyUp (keyEvent CapsLock false),
        .keyDown (keyEvent CapsLock false),
        .keyDown (keyEvent CapsLock true)]).state.case = CAPS
    ∧ (run none [.keyDown (keyEvent CapsLock false)]).state.isCapsLockPressed = true
    ∧ (run none [.keyDown (keyEvent CapsLock false),
        .keyDown (keyEvent CapsLock true)]).state.isCapsLockPressed = true
    ∧ (run none [.keyDown (keyEvent CapsLock false),
        .keyDown (keyEvent CapsLock true)]).state.case = CAPS := by
  decide

/-- C12 fails as stated: right after start-up cell 29 of the grid is the
CapsLock key and CapsLock is off; a pointer press whose target is that cell
itself (the `div`, not one of its spans) is a pointer press on the CapsLock
key, and `mouseDownHandler` ignores it: `isCapsLockPressed` stays `false`, it
is not negated, and `state.case` stays `caseDown`. -/
theorem C12_counterexample :
    ((run none []).element[29]?).map (fun x => x.key.className) = some CapsLock
    ∧ (pointerAt (.keyDiv 29)).target.closestDiv (run none []).element = some (some (.inl 29))
    ∧ (run none []).state.isCapsLockPressed = false
    ∧ (mouseDownHandler (run none []) (pointerAt (.keyDiv 29))).after.state.isCapsLockPressed
        = false
    ∧ (mouseDownHandler (run none []) (pointerAt (.keyDiv 29))).after.state.isCapsLockPressed
        ≠ !(run none []).state.isCapsLockPressed
    ∧ (mouseDownHandler (run none []) (pointerAt (.keyDiv 29))).after.state.case = CASE_DOWN
    ∧ (run none [.mouseDown (pointerAt (.keyDiv 29))]).state.isCapsLockPressed = false := by
  decide

/-- C12, amended: in every state reached from start-up, a key-down of CapsLock
with `repeat = false` and a pointer press on a span of the CapsLock key both
return with `isCapsLockPressed` negated, both Shift flags as they were, and
`state.case` the entry of the table for the new flags; for every state
`processKeyPress` with `current.code` equal to `CapsLock` and an event that is
not an auto-repeat does the same; and a pointer press whose target is not a
span, the cell of a key itself included, returns the controller as it is. -/
theorem C12_capsLock_toggles (stored : Option Str) (as : List Action)
    (e : KeyboardEvent) (he : e.code = CapsLock) (hr : e.isRepeat = false)
    (m : MouseEvent) (i : Nat) (text : Str) (x : Cell)
    (hspan : m.target.span (run stored as).element = some (i, text))
    (hx : (run stored as).element[i]? = some x) (hcode : x.key.className = CapsLock) :
    (∃ c1, keyDownHandler (run stored as) e = .ok c1
      ∧ c1.state.isCapsLockPressed = !(run stored as).state.isCapsLockPressed
      ∧ c1.state.isShiftLeftPressed = (run stored as).state.isShiftLeftPressed
      ∧ c1.state.isShiftRightPressed = (run stored as).state.isShiftRightPressed
      ∧ c1.state.case = specCase (!(run stored as).state.isCapsLockPressed)
          ((run stored as).state.isShiftLeftPressed || (run stored as).state.isShiftRightPressed))
    ∧ (∃ c1, mouseDownHandler (run stored as) m = .ok c1
      ∧ c1.state.isCapsLockPressed = !(run stored as).state.isCapsLockPressed
      ∧ c1.state.isShiftLeftPressed = (run stored as).state.isShiftLeftPressed
      ∧ c1.state.isShiftRightPressed = (run stored as).state.isShiftRightPressed
      ∧ c1.state.case = specCase (!(run stored as).state.isCapsLockPressed)
          ((run stored as).state.isShiftLeftPressed || (run stored as).state.isShiftRightPressed))
    ∧ (∀ (c : Controller) (ev : DomEvent) (j : Nat),
        c.current.event = some ev → ev.isRepeat = false →
        c.current.element = some j → c.current.code = some CapsLock →
        ∃ c2, processKeyPress c = .ok c2
          ∧ c2.state.isCapsLockPressed = !c.state.isCapsLockPressed
          ∧ c2.state.isShiftLeftPressed = c.state.isShiftLeftPressed
          ∧ c2.state.isShiftRightPressed = c.state.isShiftRightPressed
          ∧ (c.element.isEmpty = false →
              c2.state.case = specCase (!c.state.isCapsLockPressed)
                (c.state.isShiftLeftPressed || c.state.isShiftRightPressed)))
    ∧ (∀ m2 : MouseEvent, m2.target.span (run stored as).element = none →
        mouseDownHandler (run stored as) m2 = .ok (run stored as))
    ∧ (∀ (m2 : MouseEvent) (j : Nat), m2.target = .keyDiv j →
        mouseDownHandler (run stored as) m2 = .ok (run stored as)) := by
  have hp := run_pageOk stored as
  refine ⟨?_, mouseDownHandler_capsLock _ hp m i text x hspan hx hcode, ?_,
    fun m2 h2 => mouseDownHandler_not_span _ m2 h2,
    fun m2 j h2 => mouseDownHandler_not_span _ m2 (by rw [h2]; rfl)⟩
  · obtain ⟨c1, h1, g⟩ := keyDownHandler_capsLock _ hp e he
    simp only [hr, Bool.not_false, Bool.and_true] at g
    exact ⟨c1, h1, g⟩
  · intro c ev j hev hrep hel hc
    obtain ⟨c2, h2, -, g3, g1, g2, g4⟩ := processKeyPress_capsLock_flags c ev j hev hel hc
    simp only [hrep, Bool.not_false, Bool.and_true] at g3 g4
    exact ⟨c2, h2, g3, g1, g2, g4⟩

/-- C12 right after start-up: the first press of CapsLock, by key or by
pointer, switches it on. -/
theorem C12_capsLock_toggles_witness :
    (pressOn 29).target.span (run none []).element = some (29, "CapsLock".toList)
    ∧ (run none []).element[29]? = some capsLockCell
    ∧ (∃ c1, keyDownHandler (run none []) (keyEvent CapsLock false) = .ok c1
        ∧ c1.state.isCapsLockPressed = !(run none []).state.isCapsLockPressed)
    ∧ (∃ c1, mouseDownHandler (run none []) (pressOn 29) = .ok c1
        ∧ c1.state.isCapsLockPressed = !(run none []).state.isCapsLockPressed) :=
  ⟨by decide, by decide,
   let ⟨c1, h1, h2, _⟩ := (C12_capsLock_toggles none [] (keyEvent CapsLock false) rfl rfl
      (pressOn 29) 29 "CapsLock".toList capsLockCell (by decide) (by decide) rfl).1
   ⟨c1, h1, h2⟩,
   let ⟨c1, h1, h2, _⟩ := (C12_capsLock_toggles none [] (keyEvent CapsLock false) rfl rfl
      (pressOn 29) 29 "CapsLock".toList capsLockCell (by decide) (by decide) rfl).2.1
   ⟨c1, h1, h2⟩⟩

/-! ## Dispatch -/

/-- C18: for every state, `processKeyPress` with `current.code` one of
ShiftLeft, ShiftRight, CapsLock, ControlLeft, ControlRight, AltLeft and
AltRight leaves the text and both selection ends as they are, whether it
returns or throws, and so do a key-down of such a key and a pointer press on a
span of such a key; and unless the event carries both `ctrlKey` and `altKey`
the locale and the persisted flag are unchanged as well. -/
theorem C18_modifiers_keep_text (c : Controller) (code : Str)
    (hc : c.current.code = some code)
    (hm : code ∈ [ShiftLeft, ShiftRight, CapsLock, ControlLeft, ControlRight,
      AltLeft, AltRight]) :
    (processKeyPress c).after.textarea = c.textarea
    ∧ (∀ (d : Controller) (e : KeyboardEvent), e.code = code →
        (keyDownHandler d e).after.textarea = d.textarea)
    ∧ (∀ (d : Controller) (m : MouseEvent) (i : Nat) (text : Str) (x : Cell),
        m.target.span d.element = some (i, text) → d.element[i]? = some x →
        x.key.className = code →
        (mouseDownHandler d m).after.textarea = d.textarea)
    ∧ (∀ ev : DomEvent, c.current.event = some ev → (ev.ctrlKey && ev.altKey) = false →
        (processKeyPress c).after.state.lang = c.state.lang
        ∧ (processKeyPress c).after.storedLang = c.storedLang) := by
  refine ⟨processKeyPress_modifier_textarea c code hc hm, ?_, ?_, ?_⟩
  · intro d e he
    exact keyDownHandler_modifier_textarea d e (by rw [he]; exact hm)
  · intro d m i text x hspan hx hcode
    exact mouseDownHandler_modifier_textarea d m i text x hspan hx (by rw [hcode]; exact hm)
  · intro ev hev hnb
    exact processKeyPress_lang_of_not_both c ev hev hnb

/-- C18 on the text `ab` with the cursor at 1 and a pending ShiftLeft. -/
theorem C18_modifiers_keep_text_witness :
    (sampleState ShiftLeft "Shift".toList).current.code = some ShiftLeft
    ∧ (processKeyPress (sampleState ShiftLeft "Shift".toList)).after.textarea
        = { value := "ab".toList, selectionStart := 1, selectionEnd := 1 } :=
  ⟨rfl, (C18_modifiers_keep_text (sampleState ShiftLeft "Shift".toList) ShiftLeft rfl
    (by decide)).1⟩

/-- C19: in every state reached from start-up and for every physical-key
identifier that is not the class name of a key of `ROWS`, `keyDownHandler`
returns and leaves the keyboard state (the three flags, the case, the locale),
the persisted flag, the text field and the page as they are (it records the
event in `current`), and `keyUpHandler` leaves the whole controller as it is. -/
theorem C19_unknown_key_ignored (stored : Option Str) (as : List Action) (e : KeyboardEvent)
    (_hid : isKeyIdentifier e.code)
    (hunk : e.code ∉ ROWS.flatten.map Key.className) :
    (∃ c1, keyDownHandler (run stored as) e = .ok c1
      ∧ c1.state = (run stored as).state
      ∧ c1.storedLang = (run stored as).storedLang
      ∧ c1.textarea = (run stored as).textarea
      ∧ c1.element = (run stored as).element
      ∧ c1.previous = (run stored as).previous)
    ∧ keyUpHandler (run stored as) e = run stored as := by
  have hp := run_pageOk stored as
  exact ⟨⟨_, keyDownHandler_unknown _ hp e hunk, rfl, rfl, rfl, rfl, rfl⟩,
    keyUpHandler_unknown _ hp e hunk⟩

/-- C19 right after start-up, at the identifier `F1`. -/
theorem C19_unknown_key_ignored_witness :
    isKeyIdentifier "F1".toList
    ∧ "F1".toList ∉ ROWS.flatten.map Key.className
    ∧ keyUpHandler (run none []) (keyEvent "F1".toList false) = run none [] :=
  ⟨by decide, by decide,
   (C19_unknown_key_ignored none [] (keyEvent "F1".toList false) (by decide) (by decide)).2⟩

/-! ## Shift flags -/

/-- C20: in every state reached from start-up by key-down, key-up,
pointer-press and pointer-release events (and `toggleLang` calls),
`isShiftLeftPressed` and `isShiftRightPressed` are not both set; and when a
Shift flag is set, a further Shift press, by a key-down of ShiftLeft or
ShiftRight or by a pointer press on a span of a Shift key, returns with the
three flags and the case as they were. -/
theorem C20_one_shift_flag (stored : Option Str) (as : List Action)
    (e : KeyboardEvent) (he : e.code = ShiftLeft ∨ e.code = ShiftRight)
    (m : MouseEvent) (i : Nat) (text : Str) (x : Cell)
    (hspan : m.target.span (run stored as).element = some (i, text))
    (hx : (run stored as).element[i]? = some x)
    (hcode : x.key.className = ShiftLeft ∨ x.key.className = ShiftRight)
    (hset : ((run stored as).state.isShiftLeftPressed
      || (run stored as).state.isShiftRightPressed) = true) :
    ((run stored as).state.isShiftLeftPressed && (run stored as).state.isShiftRightPressed) = false
    ∧ (∃ c1, keyDownHandler (run stored as) e = .ok c1
      ∧ c1.state.isShiftLeftPressed = (run stored as).state.isShiftLeftPressed
      ∧ c1.state.isShiftRightPressed = (run stored as).state.isShiftRightPressed
      ∧ c1.state.isCapsLockPressed = (run stored as).state.isCapsLockPressed
      ∧ c1.state.case = (run stored as).state.case)
    ∧ (∃ c1, mouseDownHandler (run stored as) m = .ok c1
      ∧ c1.state.isShiftLeftPressed = (run stored as).state.isShiftLeftPressed
      ∧ c1.state.isShiftRightPressed = (run stored as).state.isShiftRightPressed
      ∧ c1.state.isCapsLockPressed = (run stored as).state.isCapsLockPressed
      ∧ c1.state.case = (run stored as).state.case) := by
  have hp := run_pageOk stored as
  have hc0 := run_case stored as
  refine ⟨run_notBothShifts stored as, ?_, ?_⟩
  · obtain ⟨c1, h1, g3, g1, g2⟩ := keyDownHandler_shift _ hp e he
    have hc1 := run_case stored (as ++ [.keyDown e])
    rw [run_snoc, step_keyDown_ok _ c1 e h1] at hc1
    rw [(shift_press_ignored _ _ _ hset).1] at g1
    rw [(shift_press_ignored _ _ _ hset).2] at g2
    refine ⟨c1, h1, g1, g2, g3, ?_⟩
    rw [hc1, hc0, g1, g2, g3]
  · obtain ⟨c1, h1, -, -, -, g3, g1, g2⟩ := mouseDownHandler_shift _ m i text x hspan hx hcode
    have hc1 := run_case stored (as ++ [.mouseDown m])
    rw [run_snoc, step_mouseDown_ok _ c1 m h1] at hc1
    rw [(shift_press_ignored _ _ _ hset).1] at g1
    rw [(shift_press_ignored _ _ _ hset).2] at g2
    refine ⟨c1, h1, g1, g2, g3, ?_⟩
    rw [hc1, hc0, g1, g2, g3]

/-- C20 with ShiftLeft held: a key-down of ShiftRight and a pointer press on
ShiftLeft change no flag. -/
theorem C20_one_shift_flag_witness :
    (pressOn 42).target.span (run none [.keyDown (keyEvent ShiftLeft false)]).element
        = some (42, "Shift".toList)
    ∧ (run none [.keyDown (keyEvent ShiftLeft false)]).element[42]? = some (shiftLeftCell true CASE_UP)
    ∧ ((run none [.keyDown (keyEvent ShiftLeft false)]).state.isShiftLeftPressed
        || (run none [.keyDown (keyEvent ShiftLeft false)]).state.isShiftRightPressed) = true
    ∧ ∃ c1, keyDownHandler (run none [.keyDown (keyEvent ShiftLeft false)])
          (keyEvent ShiftRight false) = .ok c1
        ∧ c1.state.isShiftLeftPressed
            = (run none [.keyDown (keyEvent ShiftLeft false)]).state.isShiftLeftPressed
        ∧ c1.state.isShiftRightPressed
            = (run none [.keyDown (keyEvent ShiftLeft false)]).state.isShiftRightPressed :=
  ⟨by decide, by decide, by decide,
   let ⟨c1, h1, h2, h3, _⟩ := (C20_one_shift_flag none [.keyDown (keyEvent ShiftLeft false)]
      (keyEvent ShiftRight false) (Or.inr rfl)
      (pressOn 42) 42 "Shift".toList (shiftLeftCell true CASE_UP) (by decide) (by decide) (Or.inl rfl)
      (by decide)).2.1
   ⟨c1, h1, h2, h3⟩⟩

/-! ## Pointer release -/

/-- C17 fails as stated: after a pointer press on ShiftLeft, a release on the
cell of another key (cell 16) or on an element without a `div` ancestor leaves
`isShiftLeftPressed` set and the case `caseUp`, while a release on the pressed
key clears the flag. -/
theorem C17_counterexample :
    (run none [.mouseDown (pressOn 42)]).state.isShiftLeftPressed = true
    ∧ (run none [.mouseDown (pressOn 42),
        .mouseUp (pointerAt (.keyDiv 16))]).state.isShiftLeftPressed = true
    ∧ (run none [.mouseDown (pressOn 42),
        .mouseUp (pointerAt (.keyDiv 16))]).state.case = CASE_UP
    ∧ (run none [.mouseDown (pressOn 42),
        .mouseUp (pointerAt .noDiv)]).state.isShiftLeftPressed = true
    ∧ (run none [.mouseDown (pressOn 42),
        .mouseUp (pointerAt (.keyDiv 42))]).state.isShiftLeftPressed = false
    ∧ (run none [.mouseDown (pressOn 42),
        .mouseUp (pointerAt (.keyDiv 42))]).state.case = CASE_DOWN := by
  decide

/-- C17, amended: in a state reached from start-up with no Shift flag set, a
pointer press on a span of a Shift key sets that side's flag; a release whose
target lies in a `div` that is not a key cell replays the key recorded at the
press: both Shift flags are clear and the case is recomputed, and the keyboard
state is the same as after a release on the pressed key itself.  A release on
the cell of a key with another identifier is handled with that identifier and
leaves the Shift flags as the press set them, and a release on an element
without a `div` ancestor leaves the keyboard state as it is. -/
theorem C17_release_replay (stored : Option Str) (as : List Action)
    (m1 : MouseEvent) (i : Nat) (text : Str) (x : Cell)
    (hspan : m1.target.span (run stored as).element = some (i, text))
    (hx : (run stored as).element[i]? = some x)
    (hcode : x.key.className = ShiftLeft ∨ x.key.className = ShiftRight)
    (hl : (run stored as).state.isShiftLeftPressed = false)
    (hr : (run stored as).state.isShiftRightPressed = false)
    (m2 : MouseEvent) (h2 : m2.target = .otherDiv)
    (m3 : MouseEvent)
    (h3 : m3.target.closestDiv (run stored as).element = some (some (.inl i))) :
    (run stored (as ++ [.mouseDown m1])).state.isShiftLeftPressed
        = decide (x.key.className = ShiftLeft)
    ∧ (run stored (as ++ [.mouseDown m1])).state.isShiftRightPressed
        = decide (x.key.className = ShiftRight)
    ∧ (run stored (as ++ [.mouseDown m1] ++ [.mouseUp m2])).state.isShiftLeftPressed = false
    ∧ (run stored (as ++ [.mouseDown m1] ++ [.mouseUp m2])).state.isShiftRightPressed = false
    ∧ (run stored (as ++ [.mouseDown m1] ++ [.mouseUp m2])).state.case
        = specCase (run stored as).state.isCapsLockPressed false
    ∧ (run stored (as ++ [.mouseDown m1] ++ [.mouseUp m3])).state
        = (run stored (as ++ [.mouseDown m1] ++ [.mouseUp m2])).state
    ∧ (∀ (m4 : MouseEvent) (j : Nat) (y : Cell),
        (run stored as).element[j]? = some y →
        m4.target.closestDiv (run stored as).element = some (some (.inl j)) →
        y.key.className ≠ x.key.className →
        (run stored (as ++ [.mouseDown m1] ++ [.mouseUp m4])).state.isShiftLeftPressed
            = (run stored (as ++ [.mouseDown m1])).state.isShiftLeftPressed
        ∧ (run stored (as ++ [.mouseDown m1] ++ [.mouseUp m4])).state.isShiftRightPressed
            = (run stored (as ++ [.mouseDown m1])).state.isShiftRightPressed)
    ∧ (∀ m5 : MouseEvent, m5.target = .noDiv →
        (run stored (as ++ [.mouseDown m1] ++ [.mouseUp m5])).state
          = (run stored (as ++ [.mouseDown m1])).state) := by
  have hp := run_pageOk stored as
  have hp1 := run_pageOk stored (as ++ [.mouseDown m1])
  obtain ⟨c1, h1, hcur, -, hprev, g3, g1, g2⟩ :=
    mouseDownHandler_shift _ m1 i text x hspan hx hcode
  have e1 : run stored (as ++ [.mouseDown m1]) = c1 := by
    rw [run_snoc]
    exact step_mouseDown_ok _ c1 m1 h1
  simp only [hl, hr, Bool.not_false, Bool.and_true, Bool.false_or] at g1 g2
  rw [← e1] at g1 g2 g3 hcur hprev
  have hlen : (run stored (as ++ [.mouseDown m1])).element.length
      = (run stored as).element.length := by
    rw [pageOk_length _ hp, pageOk_length _ hp1]
  have hm2 := run_release_clears stored (as ++ [.mouseDown m1]) m2 x.key.className _
    (mouseUpHandler_otherDiv _ m2 h2) (by rw [hprev, hcur]) g1 g2
  obtain ⟨z, hz, hzk⟩ := pageOk_key_at _ _ hp hp1 i x hx
  have h3b : m3.target.closestDiv (run stored (as ++ [.mouseDown m1])).element
      = some (some (.inl i)) := by
    rw [closestDiv_of_length _ _ m3.target hlen]
    exact h3
  have hm3 := run_release_clears stored (as ++ [.mouseDown m1]) m3 x.key.className _
    (mouseUpHandler_key _ m3 i z hz h3b) (by rw [hzk]) g1 g2
  refine ⟨g1, g2, by rw [hm2], by rw [hm2], by rw [hm2, g3], by rw [hm2, hm3], ?_, ?_⟩
  · intro m4 j y hy h4 hne
    obtain ⟨w, hw, hwk⟩ := pageOk_key_at _ _ hp hp1 j y hy
    have h4b : m4.target.closestDiv (run stored (as ++ [.mouseDown m1])).element
        = some (some (.inl j)) := by
      rw [closestDiv_of_length _ _ m4.target hlen]
      exact h4
    rw [run_mouseUp, mouseUpHandler_key _ m4 j w hw h4b]
    obtain ⟨-, k1, k2⟩ := release_elsewhere_keeps (run stored (as ++ [.mouseDown m1]))
      x.key.className w.key.className hcode (by rw [hwk]; exact hne) g1 g2
      { element := some j, code := some w.key.className, event := some (.mouse m4),
        char := (run stored (as ++ [.mouseDown m1])).current.char } rfl
    exact ⟨k1, k2⟩
  · intro m5 h5
    rw [run_mouseUp, mouseUpHandler_noDiv _ m5 h5]

/-- C17, amended, right after start-up: a pointer press on ShiftLeft followed
by a release on a part of the page that is no key clears the flag. -/
theorem C17_release_replay_witness :
    (pressOn 42).target.span (run none []).element = some (42, "Shift".toList)
    ∧ (run none []).element[42]? = some (shiftLeftCell false CASE_DOWN)
    ∧ (run none []).state.isShiftLeftPressed = false
    ∧ (run none []).state.isShiftRightPressed = false
    ∧ (pointerAt (.keyDiv 42)).target.closestDiv (run none []).element = some (some (.inl 42))
    ∧ (run none ([] ++ [.mouseDown (pressOn 42)])).state.isShiftLeftPressed
        = decide ((shiftLeftCell false CASE_DOWN).key.className = ShiftLeft)
    ∧ (run none ([] ++ [.mouseDown (pressOn 42)]
        ++ [.mouseUp (pointerAt .otherDiv)])).state.isShiftLeftPressed = false :=
  ⟨by decide, by decide, by decide, by decide, by decide,
   (C17_release_replay none [] (pressOn 42) 42 "Shift".toList (shiftLeftCell false CASE_DOWN)
      (by decide) (by decide) (Or.inl rfl) (by decide) (by decide)
      (pointerAt .otherDiv) rfl (pointerAt (.keyDiv 42)) (by decide)).1,
   (C17_release_replay none [] (pressOn 42) 42 "Shift".toList (shiftLeftCell false CASE_DOWN)
      (by decide) (by decide) (Or.inl rfl) (by decide) (by decide)
      (pointerAt .otherDiv) rfl (pointerAt (.keyDiv 42)) (by decide)).2.2.1⟩

end VirtualKeyboard
